import Mathlib

/-!
# reactive-go/task: OneShotEvent, MultiOneShotEvent and Group

A shallow embedding of `event.go` and `group.go`.

* Every method is a function from the receiver's state to an `Outcome`: the
  state it leaves behind, the externally visible effects it performed (channel
  closes, `Signal` calls on downstream `Event` handles) and how the call ended
  (it returned a value, it panicked, or it blocks).
* A channel is a reference: it carries the identity given by `make` and a
  closed flag.  A nil channel is `none`.
* `sync.Mutex` is a boolean (held or free); `Lock` on a held mutex blocks.
* `sync.WaitGroup` is its `int32` counter; `Add` adds the low 32 bits of the
  delta, panics when the counter has become negative, and `Wait` blocks while
  the counter is non-zero.
-/

namespace GoTask

/-! ## Runtime vocabulary -/

/-- Reasons for which the Go runtime or the sync package panic. -/
inductive PanicReason where
  | closeOfNilChannel
  | closeOfClosedChannel
  | negativeWaitGroupCounter
  deriving DecidableEq, Repr

/-- Externally visible effects of a call. -/
inductive Effect where
  /-- The statement `close(ch)` was executed successfully on channel `ch`. -/
  | close (ch : Nat)
  /-- The method `Signal()` was invoked on the downstream `Event` handle `h`. -/
  | signal (h : Nat)
  deriving DecidableEq, Repr

/-- How a call ends. -/
inductive Status (α : Type) where
  | returned (val : α)
  | panicked (why : PanicReason)
  | blocked
  deriving DecidableEq, Repr

/-- Result of running a call: final state, effects performed, and ending. -/
structure Outcome (σ α : Type) where
  state : σ
  trace : List Effect
  status : Status α
  deriving DecidableEq, Repr

/-- Forget the returned value. -/
def Status.void {α : Type} : Status α → Status Unit
  | .returned _ => .returned ()
  | .panicked w => .panicked w
  | .blocked => .blocked

/-- Sequential composition of two calls made by one goroutine: the second call
is made only when the first one returned. -/
def Outcome.andThen {σ α β : Type} (o : Outcome σ α) (f : σ → Outcome σ β) : Outcome σ β :=
  match o.status with
  | .returned _ =>
    let o2 := f o.state
    { state := o2.state, trace := o.trace ++ o2.trace, status := o2.status }
  | .panicked w => { state := o.state, trace := o.trace, status := .panicked w }
  | .blocked => { state := o.state, trace := o.trace, status := .blocked }

/-- Number of successful `close` statements recorded in a trace. -/
def closeCount (tr : List Effect) : Nat :=
  tr.countP fun e => match e with
    | .close _ => true
    | .signal _ => false

/-- Number of `Signal()` invocations on handle `h` recorded in a trace. -/
def signalCount (h : Nat) (tr : List Effect) : Nat :=
  tr.count (Effect.signal h)

/-! ## Channels and atomics -/

/-- A channel of type `chan struct{}` on which nobody ever sends. -/
structure Chan where
  id : Nat
  closed : Bool
  deriving DecidableEq, Repr

/-- The builtin `make(chan struct{})`; `fresh` is the identity of the new channel. -/
def make (fresh : Nat) : Chan := { id := fresh, closed := false }

/-- The function `atomic.CompareAndSwapInt32(addr, old, new)`: the new content
of `addr` and whether the swap happened. -/
def CompareAndSwapInt32 (v old new : Int) : Int × Bool :=
  if v = old then (new, true) else (v, false)

/-- The function `atomic.LoadInt32`. -/
def LoadInt32 (v : Int) : Int := v

/-- A receive `<-c` can proceed at once exactly when `c` is a closed channel
(nobody sends on these channels; a receive from a nil channel blocks forever). -/
def recvReady : Option Chan → Bool
  | none => false
  | some ch => ch.closed

/-! ## OneShotEvent (event.go) -/

/-- The struct `OneShotEvent`. -/
structure OneShotEvent where
  C : Option Chan
  signalled : Int
  deriving DecidableEq, Repr

/-- The method `OneShotEvent.Init`. -/
def OneShotEvent.Init (rcv : OneShotEvent) (fresh : Nat) : OneShotEvent :=
  { rcv with C := some (make fresh) }

/-- The constructor `NewOneShotEvent`. -/
def NewOneShotEvent (fresh : Nat) : OneShotEvent :=
  OneShotEvent.Init { C := none, signalled := 0 } fresh

/-- The method `OneShotEvent.IsSignalled`. -/
def OneShotEvent.IsSignalled (rcv : OneShotEvent) : Bool :=
  LoadInt32 rcv.signalled == 1

/-- First atomic step of `OneShotEvent.Signal`: the compare-and-swap of the
flag from 0 to 1; the boolean tells whether the swap happened. -/
def OneShotEvent.cas (rcv : OneShotEvent) : OneShotEvent × Bool :=
  match CompareAndSwapInt32 rcv.signalled 0 1 with
  | (v, swapped) => ({ rcv with signalled := v }, swapped)

/-- Second step of `OneShotEvent.Signal`: the statement `close(rcv.C)`, which
panics on a nil channel and on a channel that is already closed. -/
def OneShotEvent.closeC (rcv : OneShotEvent) : Outcome OneShotEvent Unit :=
  match rcv.C with
  | none => { state := rcv, trace := [], status := .panicked .closeOfNilChannel }
  | some ch =>
    if ch.closed then
      { state := rcv, trace := [], status := .panicked .closeOfClosedChannel }
    else
      { state := { rcv with C := some { ch with closed := true } },
        trace := [.close ch.id], status := .returned () }

/-- The method `OneShotEvent.Signal`. -/
def OneShotEvent.Signal (rcv : OneShotEvent) : Outcome OneShotEvent Unit :=
  match rcv.cas with
  | (rcv1, true) => rcv1.closeC
  | (rcv1, false) => { state := rcv1, trace := [], status := .returned () }

/-- The method `OneShotEvent.Wait`: the receive `<-rcv.C`. -/
def OneShotEvent.Wait (rcv : OneShotEvent) : Outcome OneShotEvent Unit :=
  if recvReady rcv.C then { state := rcv, trace := [], status := .returned () }
  else { state := rcv, trace := [], status := .blocked }

/-- The method `OneShotEvent.Sleep`.

`elapsed` is the time that has passed since `time.NewTimer(d)` when the
`select` statement inspects its cases, so the timer case is ready when
`d ≤ elapsed`; `pickTimer` is the choice the runtime makes when both cases of
the `select` are ready (the Go specification leaves it to a pseudo-random
selection).  When neither case is ready the `select` waits; no other goroutine
signals in this model, so the timer fires first. -/
def OneShotEvent.Sleep (rcv : OneShotEvent) (d elapsed : Int) (pickTimer : Bool) :
    Outcome OneShotEvent Bool :=
  let timerReady : Bool := decide (d ≤ elapsed)
  let result : Bool :=
    if timerReady && recvReady rcv.C then pickTimer
    else if timerReady then true
    else if recvReady rcv.C then false
    else true
  { state := rcv, trace := [], status := .returned result }

/-- Calls on a `OneShotEvent`. -/
inductive EventOp where
  | Init (fresh : Nat)
  | Signal
  | IsSignalled
  | Wait
  | Sleep (d elapsed : Int) (pickTimer : Bool)
  deriving DecidableEq, Repr

/-- One call on a `OneShotEvent`, its returned value forgotten. -/
def OneShotEvent.call (op : EventOp) (rcv : OneShotEvent) : Outcome OneShotEvent Unit :=
  match op with
  | .Init fresh => { state := rcv.Init fresh, trace := [], status := .returned () }
  | .Signal => rcv.Signal
  | .IsSignalled => { state := rcv, trace := [], status := .returned () }
  | .Wait => rcv.Wait
  | .Sleep d elapsed pickTimer =>
    let o := rcv.Sleep d elapsed pickTimer
    { state := o.state, trace := o.trace, status := o.status.void }

/-- The state left by a list of calls, each applied to the state the previous
one left, whichever goroutine made it and however it ended. -/
def OneShotEvent.after (ops : List EventOp) (rcv : OneShotEvent) : OneShotEvent :=
  ops.foldl (fun ev op => (OneShotEvent.call op ev).state) rcv

/-- All effects performed by a list of calls, in order. -/
def OneShotEvent.effects : List EventOp → OneShotEvent → List Effect
  | [], _ => []
  | op :: ops, rcv =>
    (OneShotEvent.call op rcv).trace ++ OneShotEvent.effects ops (OneShotEvent.call op rcv).state

/-- A list of calls made one after the other by a single goroutine. -/
def OneShotEvent.run : List EventOp → OneShotEvent → Outcome OneShotEvent Unit
  | [], rcv => { state := rcv, trace := [], status := .returned () }
  | op :: ops, rcv => (OneShotEvent.call op rcv).andThen (OneShotEvent.run ops)

/-! ## MultiOneShotEvent (event.go) -/

/-- A value of the interface `Event`, known by its identity only: invoking its
`Signal` method is recorded as `Effect.signal` and returns. -/
abbrev Event := Nat

/-- The struct `MultiOneShotEvent`; `mu` is true while the mutex is held. -/
structure MultiOneShotEvent where
  mu : Bool
  signalled : Bool
  events : List Event
  deriving DecidableEq, Repr

/-- The zero value `task.MultiOneShotEvent{}`. -/
def MultiOneShotEvent.zero : MultiOneShotEvent :=
  { mu := false, signalled := false, events := [] }

/-- The loop `for _, ev := range evs { ev.Signal() }`. -/
def signalAll (evs : List Event) : List Effect := evs.map Effect.signal

/-- The method `MultiOneShotEvent.IsSignalled`. -/
def MultiOneShotEvent.IsSignalled (rcv : MultiOneShotEvent) : Outcome MultiOneShotEvent Bool :=
  if rcv.mu then { state := rcv, trace := [], status := .blocked }
  else
    let locked := { rcv with mu := true }
    let signalled := locked.signalled
    { state := { locked with mu := false }, trace := [], status := .returned signalled }

/-- The method `MultiOneShotEvent.Signal`. -/
def MultiOneShotEvent.Signal (rcv : MultiOneShotEvent) : Outcome MultiOneShotEvent Unit :=
  if rcv.mu then { state := rcv, trace := [], status := .blocked }
  else
    let locked := { rcv with mu := true }
    if locked.signalled then
      { state := { locked with mu := false }, trace := [], status := .returned () }
    else
      let evs := locked.events
      { state := { locked with signalled := true, events := [], mu := false },
        trace := signalAll evs, status := .returned () }

/-- The method `MultiOneShotEvent.Add`.  On the already-signalled path the
source has no `rcv.mu.Unlock()`: the mutex taken on entry is still held while
the handles are signalled and when the method returns. -/
def MultiOneShotEvent.Add (rcv : MultiOneShotEvent) (evs : List Event) :
    Outcome MultiOneShotEvent Unit :=
  if rcv.mu then { state := rcv, trace := [], status := .blocked }
  else
    let locked := { rcv with mu := true }
    if !locked.signalled then
      { state := { locked with events := locked.events ++ evs, mu := false },
        trace := [], status := .returned () }
    else
      { state := locked, trace := signalAll evs, status := .returned () }

/-- Calls on a `MultiOneShotEvent`. -/
inductive MultiOp where
  | IsSignalled
  | Signal
  | Add (evs : List Event)
  deriving DecidableEq, Repr

/-- One call on a `MultiOneShotEvent`, its returned value forgotten. -/
def MultiOneShotEvent.call (op : MultiOp) (rcv : MultiOneShotEvent) :
    Outcome MultiOneShotEvent Unit :=
  match op with
  | .IsSignalled =>
    let o := rcv.IsSignalled
    { state := o.state, trace := o.trace, status := o.status.void }
  | .Signal => rcv.Signal
  | .Add evs => rcv.Add evs

/-- A list of calls made one after the other by a single goroutine. -/
def MultiOneShotEvent.run : List MultiOp → MultiOneShotEvent → Outcome MultiOneShotEvent Unit
  | [], rcv => { state := rcv, trace := [], status := .returned () }
  | op :: ops, rcv => (MultiOneShotEvent.call op rcv).andThen (MultiOneShotEvent.run ops)

/-! ## Group (group.go) -/

/-- The interface type `error`: `none` is nil, a non-nil error is known by its identity. -/
abbrev error := Option Nat

/-- The struct `Group`: the embedded `OneShotEvent`, the counter of the
`sync.WaitGroup`, the mutex (true while held) and the error slot. -/
structure Group where
  event : OneShotEvent
  wg : Int
  mu : Bool
  err : error
  deriving DecidableEq, Repr

/-- The method `Group.Init`. -/
def Group.Init (rcv : Group) (fresh : Nat) : Group :=
  { rcv with event := rcv.event.Init fresh }

/-- The constructor `NewGroup`. -/
def NewGroup (fresh : Nat) : Group :=
  Group.Init { event := { C := none, signalled := 0 }, wg := 0, mu := false, err := none } fresh

/-- The promoted method `Group.IsSignalled`. -/
def Group.IsSignalled (rcv : Group) : Bool := rcv.event.IsSignalled

/-- The promoted method `Group.Signal`. -/
def Group.Signal (rcv : Group) : Outcome Group Unit :=
  let o := rcv.event.Signal
  { state := { rcv with event := o.state }, trace := o.trace, status := o.status }

/-- The conversion `int32(x)`: the low 32 bits of `x` read as a signed integer. -/
def int32 (x : Int) : Int := (x + 2147483648) % 4294967296 - 2147483648

/-- The method `Group.Add`, that is `sync.WaitGroup.Add`.  The counter of a
`sync.WaitGroup` is the `int32` in the high half of its 64-bit state, to which
`Add` adds `uint64(delta) << 32`: the new counter is the old one plus the low
32 bits of `delta`, wrapped to an `int32`.  The call panics when that value is
negative. -/
def Group.Add (rcv : Group) (delta : Int) : Outcome Group Unit :=
  let counter := int32 (rcv.wg + delta)
  if counter < 0 then
    { state := { rcv with wg := counter }, trace := [],
      status := .panicked .negativeWaitGroupCounter }
  else
    { state := { rcv with wg := counter }, trace := [], status := .returned () }

/-- The guarded part of `Group.Done`: the statements under `if err != nil`. -/
def Group.record (rcv : Group) (err : error) : Outcome Group Unit :=
  match err with
  | none => { state := rcv, trace := [], status := .returned () }
  | some e =>
    if rcv.mu then { state := rcv, trace := [], status := .blocked }
    else
      let locked := { rcv with mu := true }
      if locked.err = none then
        Group.Signal { locked with err := some e, mu := false }
      else
        { state := { locked with mu := false }, trace := [], status := .returned () }

/-- The method `Group.Done`; `rcv.wg.Done()` is `Add(-1)`. -/
def Group.Done (rcv : Group) (err : error) : Outcome Group Unit :=
  (rcv.record err).andThen fun g => g.Add (-1)

/-- The method `Group.Err`. -/
def Group.Err (rcv : Group) : Outcome Group error :=
  if rcv.mu then { state := rcv, trace := [], status := .blocked }
  else
    let locked := { rcv with mu := true }
    let err := locked.err
    { state := { locked with mu := false }, trace := [], status := .returned err }

/-- The method `Group.Wait`: `sync.WaitGroup.Wait` blocks until the counter is zero. -/
def Group.Wait (rcv : Group) : Outcome Group error :=
  if rcv.wg = 0 then rcv.Err
  else { state := rcv, trace := [], status := .blocked }

/-- The method `Group.SignalAndWait`. -/
def Group.SignalAndWait (rcv : Group) : Outcome Group error :=
  rcv.Signal.andThen Group.Wait

/-- Calls on a `Group`. -/
inductive GroupOp where
  | Add (delta : Int)
  | Done (err : error)
  | Err
  | Signal
  | Wait
  | SignalAndWait
  deriving DecidableEq, Repr

/-- One call on a `Group`, its returned value forgotten. -/
def Group.call (op : GroupOp) (rcv : Group) : Outcome Group Unit :=
  match op with
  | .Add delta => rcv.Add delta
  | .Done err => rcv.Done err
  | .Err => let o := rcv.Err; { state := o.state, trace := o.trace, status := o.status.void }
  | .Signal => rcv.Signal
  | .Wait => let o := rcv.Wait; { state := o.state, trace := o.trace, status := o.status.void }
  | .SignalAndWait =>
    let o := rcv.SignalAndWait
    { state := o.state, trace := o.trace, status := o.status.void }

/-- The state left by a list of calls, each applied to the state the previous
one left, whichever goroutine made it and however it ended. -/
def Group.after (ops : List GroupOp) (rcv : Group) : Group :=
  ops.foldl (fun g op => (Group.call op g).state) rcv

/-- All effects performed by a list of calls, in order. -/
def Group.effects : List GroupOp → Group → List Effect
  | [], _ => []
  | op :: ops, rcv => (Group.call op rcv).trace ++ Group.effects ops (Group.call op rcv).state

/-- A list of calls made one after the other by a single goroutine. -/
def Group.run : List GroupOp → Group → Outcome Group Unit
  | [], rcv => { state := rcv, trace := [], status := .returned () }
  | op :: ops, rcv => (Group.call op rcv).andThen (Group.run ops)

/-- The first non-nil error of a list. -/
def firstError : List error → error
  | [] => none
  | none :: es => firstError es
  | some e :: _ => some e

/-! ## Racing Signal calls (event.go, OneShotEvent.Signal)

`OneShotEvent.Signal` is two steps, each atomic: the compare-and-swap and,
for the caller that won it, `close(rcv.C)`.  Goroutines racing on one event
interleave these steps in any order. -/

/-- Where a goroutine stands in its `Signal` call: `start` before the
compare-and-swap, `won` after a successful swap and before `close`, `closed`
after it performed `close` and returned, `lost` after a failed swap (returned
without closing), `panicked` when its `close` panicked. -/
inductive PC where
  | start
  | won
  | closed
  | lost
  | panicked
  deriving DecidableEq, Repr

/-- The shared event, the position of every goroutine and the effects so far. -/
structure Race where
  ev : OneShotEvent
  pcs : Nat → PC
  trace : List Effect

/-- A new event and goroutines that have not started their `Signal` call yet. -/
def Race.init (fresh : Nat) : Race :=
  { ev := NewOneShotEvent fresh, pcs := fun _ => PC.start, trace := [] }

/-- Goroutine `i` (of `n`) performs its next atomic step; a goroutine whose call
is over does nothing. -/
def Race.step (n : Nat) (r : Race) (i : Nat) : Race :=
  if i < n then
    match r.pcs i with
    | .start =>
      match r.ev.cas with
      | (ev1, true) => { r with ev := ev1, pcs := Function.update r.pcs i PC.won }
      | (ev1, false) => { r with ev := ev1, pcs := Function.update r.pcs i PC.lost }
    | .won =>
      let o := r.ev.closeC
      match o.status with
      | .returned _ =>
        { ev := o.state, pcs := Function.update r.pcs i PC.closed, trace := r.trace ++ o.trace }
      | _ =>
        { ev := o.state, pcs := Function.update r.pcs i PC.panicked, trace := r.trace ++ o.trace }
    | _ => r
  else r

/-- The interleaving given by a schedule: the goroutine to step next, in order. -/
def Race.run (n : Nat) (sched : List Nat) (r : Race) : Race :=
  sched.foldl (Race.step n) r

/-- A schedule under which each of the `n` goroutines gets the two steps its
call needs at most. -/
def completeSchedule (n : Nat) (sched : List Nat) : Prop :=
  ∀ i, i < n → 2 ≤ sched.count i

/-! ## MultiOneShotEvent: NewEvent and NewGroup (event.go) -/

/-- The method `MultiOneShotEvent.NewEvent`.  `h` is the identity under which
the new event is registered with `Add` and `fresh` the identity of its
channel.  The value returned is the new event in the state it has when the
method returns: signalled when `Add` invoked its `Signal` method. -/
def MultiOneShotEvent.NewEvent (rcv : MultiOneShotEvent) (h : Event) (fresh : Nat) :
    Outcome MultiOneShotEvent OneShotEvent :=
  let ev := NewOneShotEvent fresh
  let o := rcv.Add [h]
  match o.status with
  | .returned _ =>
    { state := o.state, trace := o.trace,
      status := .returned (if Effect.signal h ∈ o.trace then ev.Signal.state else ev) }
  | .panicked w => { state := o.state, trace := o.trace, status := .panicked w }
  | .blocked => { state := o.state, trace := o.trace, status := .blocked }

/-- The method `MultiOneShotEvent.NewGroup`, with `h` and `fresh` as in `NewEvent`. -/
def MultiOneShotEvent.NewGroup (rcv : MultiOneShotEvent) (h : Event) (fresh : Nat) :
    Outcome MultiOneShotEvent Group :=
  let group := GoTask.NewGroup fresh
  let o := rcv.Add [h]
  match o.status with
  | .returned _ =>
    { state := o.state, trace := o.trace,
      status := .returned (if Effect.signal h ∈ o.trace then group.Signal.state else group) }
  | .panicked w => { state := o.state, trace := o.trace, status := .panicked w }
  | .blocked => { state := o.state, trace := o.trace, status := .blocked }

/-- Every call of the API of `MultiOneShotEvent`. -/
inductive FanoutOp where
  | IsSignalled
  | Signal
  | Add (evs : List Event)
  | NewEvent (h : Event) (fresh : Nat)
  | NewGroup (h : Event) (fresh : Nat)
  deriving DecidableEq, Repr

/-- One call of the API of `MultiOneShotEvent`, its returned value forgotten. -/
def MultiOneShotEvent.invoke (op : FanoutOp) (rcv : MultiOneShotEvent) :
    Outcome MultiOneShotEvent Unit :=
  match op with
  | .IsSignalled => MultiOneShotEvent.call MultiOp.IsSignalled rcv
  | .Signal => rcv.Signal
  | .Add evs => rcv.Add evs
  | .NewEvent h fresh =>
    let o := rcv.NewEvent h fresh
    { state := o.state, trace := o.trace, status := o.status.void }
  | .NewGroup h fresh =>
    let o := rcv.NewGroup h fresh
    { state := o.state, trace := o.trace, status := o.status.void }

/-- The state left by a list of calls, each applied to the state the previous
one left, whichever goroutine made it and however it ended. -/
def MultiOneShotEvent.after (ops : List FanoutOp) (rcv : MultiOneShotEvent) :
    MultiOneShotEvent :=
  ops.foldl (fun ev op => (MultiOneShotEvent.invoke op ev).state) rcv

/-! ## Task and Go (task.go, group.go) -/

/-- The interface `Task`, given by its method `Run(stopEv *OneShotEvent) error`:
what the call does to the event behind the pointer, and how it ends. -/
structure Task where
  Run : OneShotEvent → Outcome OneShotEvent error

/-- The function type `Func`. -/
abbrev Func := OneShotEvent → Outcome OneShotEvent error

/-- The method `Func.Run`. -/
def Func.Run (rcv : Func) (stopEv : OneShotEvent) : Outcome OneShotEvent error :=
  rcv stopEv

/-- The conversion `Func(task)`, used where a `Task` is expected. -/
def Func.toTask (rcv : Func) : Task := { Run := Func.Run rcv }

/-- The body of the goroutine started by `Group.Go`:
`err := task.Run(&rcv.OneShotEvent); rcv.Done(err)`. -/
def Group.goroutine (rcv : Group) (task : Task) : Outcome Group Unit :=
  let o := task.Run rcv.event
  let g := { rcv with event := o.state }
  match o.status with
  | .returned err =>
    let d := g.Done err
    { state := d.state, trace := o.trace ++ d.trace, status := d.status }
  | .panicked w => { state := g, trace := o.trace, status := .panicked w }
  | .blocked => { state := g, trace := o.trace, status := .blocked }

/-- The method `Group.Go`: the outcome of the part its caller runs, `rcv.Add(1)`,
and the goroutine it starts, to be run on the state the group has by then. -/
def Group.Go (rcv : Group) (task : Task) : Outcome Group Unit × (Group → Outcome Group Unit) :=
  (rcv.Add 1, fun g => g.goroutine task)

/-- The method `Group.GoFunc`. -/
def Group.GoFunc (rcv : Group) (task : Func) :
    Outcome Group Unit × (Group → Outcome Group Unit) :=
  rcv.Go (Func.toTask task)

/-- The steps of a group whose tasks are launched by `Go`, in the order in
which they take effect: a `Go` call (its `Add(1)`), a call a running task
makes on its stop handle, the embedded event of the group, and the return of
a task with `err`, upon which its goroutine calls `Done(err)`. -/
inductive GoAct where
  | launch
  | handle (op : EventOp)
  | finish (err : error)
  deriving DecidableEq, Repr

/-- One step of a group whose tasks are launched by `Go`. -/
def Group.act (a : GoAct) (rcv : Group) : Outcome Group Unit :=
  match a with
  | .launch => rcv.Add 1
  | .handle op =>
    let o := OneShotEvent.call op rcv.event
    { state := { rcv with event := o.state }, trace := o.trace, status := o.status }
  | .finish err => rcv.Done err

/-- A list of steps taken by the goroutines of a program: a step that blocks
holds up its own goroutine only, a panic ends the program. -/
def Group.play : List GoAct → Group → Outcome Group Unit
  | [], rcv => { state := rcv, trace := [], status := .returned () }
  | a :: rest, rcv =>
    let o := Group.act a rcv
    match o.status with
    | .panicked w => { state := o.state, trace := o.trace, status := .panicked w }
    | _ =>
      let r := Group.play rest o.state
      { state := r.state, trace := o.trace ++ r.trace, status := r.status }

/-- The number of tasks launched and not yet returned after a list of steps
that starts with `c` of them; `none` when a task returns that was not launched. -/
def outstanding : Nat → List GoAct → Option Nat
  | c, [] => some c
  | c, .launch :: rest => outstanding (c + 1) rest
  | c, .handle _ :: rest => outstanding c rest
  | 0, .finish _ :: _ => none
  | c + 1, .finish _ :: rest => outstanding c rest

/-- The values returned by the tasks, in the order of their `Done` calls. -/
def returnValues : List GoAct → List error
  | [] => []
  | .finish err :: rest => err :: returnValues rest
  | _ :: rest => returnValues rest

/-! ## Context adapters (context.go) -/

/-- A context key, an `interface{}` value: a value of the unexported type `key`
of this package, or a key of a type of another package. -/
inductive Key where
  | task (k : Int)
  | foreign (id : Nat)
  deriving DecidableEq, Repr

/-- The constant `groupKey`: `iota + 1` on the first line of the block. -/
def groupKey : Key := Key.task (0 + 1)

/-- The constant `oneShotEvent`: `iota + 1` on the second line of the block. -/
def oneShotEvent : Key := Key.task (1 + 1)

/-- A value returned by `Context.Value`, an `interface{}`: nil, a `*Group`, a
`*OneShotEvent` (pointers are addresses), or a value of another type. -/
inductive Value where
  | nil
  | group (p : Nat)
  | event (p : Nat)
  | other (id : Nat)
  deriving DecidableEq, Repr

/-- The objects behind the pointers held by contexts. -/
structure Heap where
  groups : Nat → Group
  events : Nat → OneShotEvent

/-- The sentinel `context.Canceled`. -/
def Canceled : error := some 0

/-- The interface `context.Context`: the contexts of the standard library
(`Background`, `WithValue` under a key of another package, since no other
package can build a value of the unexported type `key`, and contexts with a
`Done` channel and an `Err` of their own) and the two adapters of this
package, which hold a pointer to the wrapped object. -/
inductive Context where
  | background
  | withValue (parent : Context) (key : Nat) (val : Value)
  | withCancel (parent : Context) (done : Option Chan) (err : error)
  | groupCtx (parent : Context) (group : Nat)
  | oneShotEventCtx (parent : Context) (event : Nat)
  deriving DecidableEq, Repr

/-- The function `WithGroup`. -/
def WithGroup (parent : Context) (val : Nat) : Context := Context.groupCtx parent val

/-- The function `WithOneShotEvent`. -/
def WithOneShotEvent (parent : Context) (val : Nat) : Context :=
  Context.oneShotEventCtx parent val

/-- The method `Done` of a context; `groupCtx.Done` is `rcv.group.C`,
`oneShotEventCtx.Done` is `rcv.event.C`. -/
def Context.Done (heap : Heap) : Context → Option Chan
  | .background => none
  | .withValue parent _ _ => parent.Done heap
  | .withCancel _ done _ => done
  | .groupCtx _ group => (heap.groups group).event.C
  | .oneShotEventCtx _ event => (heap.events event).C

/-- The method `Err` of a context, with `groupCtx.Err` and `oneShotEventCtx.Err`. -/
def Context.Err (heap : Heap) : Context → error
  | .background => none
  | .withValue parent _ _ => parent.Err heap
  | .withCancel _ _ err => err
  | .groupCtx _ group => if (heap.groups group).IsSignalled then Canceled else none
  | .oneShotEventCtx _ event => if (heap.events event).IsSignalled then Canceled else none

/-- The method `Value` of a context, with `groupCtx.Value` and `oneShotEventCtx.Value`. -/
def Context.Value (key : Key) : Context → Value
  | .background => Value.nil
  | .withValue parent k val => if key = Key.foreign k then val else parent.Value key
  | .withCancel parent _ _ => parent.Value key
  | .groupCtx parent group => if key = groupKey then Value.group group else parent.Value key
  | .oneShotEventCtx parent event =>
    if key = oneShotEvent then Value.event event else parent.Value key

/-- The function `GroupFromContext`: the type assertion `.(*Group)` with its
boolean; `none` is the nil pointer. -/
def GroupFromContext (ctx : Context) : Option Nat × Bool :=
  match ctx.Value groupKey with
  | .group p => (some p, true)
  | _ => (none, false)

/-- The function `OneShotEventFromContext`. -/
def OneShotEventFromContext (ctx : Context) : Option Nat × Bool :=
  match ctx.Value oneShotEvent with
  | .event p => (some p, true)
  | _ => (none, false)

/-- True when the chain of a context holds a `groupCtx`. -/
def Context.holdsGroup : Context → Bool
  | .background => false
  | .withValue parent _ _ => parent.holdsGroup
  | .withCancel parent _ _ => parent.holdsGroup
  | .groupCtx _ _ => true
  | .oneShotEventCtx parent _ => parent.holdsGroup

/-- True when the chain of a context holds a `oneShotEventCtx`. -/
def Context.holdsEvent : Context → Bool
  | .background => false
  | .withValue parent _ _ => parent.holdsEvent
  | .withCancel parent _ _ => parent.holdsEvent
  | .groupCtx parent _ => parent.holdsEvent
  | .oneShotEventCtx _ _ => true

/-! ## Invariants -/

/-- An event whose flag is still 0 has an open channel; the flag is 0 or 1. -/
def OneShotEvent.wellFormed (ev : OneShotEvent) : Prop :=
  (ev.signalled = 0 ∧ ∃ id, ev.C = some { id := id, closed := false }) ∨ ev.signalled = 1

/-- The flag mirrors the channel: 0 with an open channel, 1 with a closed one. -/
def OneShotEvent.mirrored (ev : OneShotEvent) : Prop :=
  (ev.signalled = 0 ∧ ∃ id, ev.C = some { id := id, closed := false }) ∨
  (ev.signalled = 1 ∧ ∃ id, ev.C = some { id := id, closed := true })

/-- True for the call `Init`. -/
def EventOp.isInit : EventOp → Bool
  | .Init _ => true
  | _ => false

/-- Between calls the mutex of a group is free and its event is well formed. -/
def Group.wellFormed (g : Group) : Prop :=
  g.mu = false ∧ g.event.wellFormed

/-- On a group whose `Signal` is never called directly, the event is signalled
exactly when an error is recorded, and its flag mirrors its channel. -/
def Group.errSignalled (g : Group) : Prop :=
  g.mu = false ∧
  ((g.err = none ∧ g.event.signalled = 0 ∧ ∃ id, g.event.C = some { id := id, closed := false }) ∨
   (g.err ≠ none ∧ g.event.signalled = 1 ∧ ∃ id, g.event.C = some { id := id, closed := true }))

/-- How far a goroutine is in its `Signal` call: 0 before the compare-and-swap,
1 between a successful swap and `close`, 2 when the call is over. -/
def PC.rank : PC → Nat
  | .start => 0
  | .won => 1
  | _ => 2

/-- Invariant of `n` goroutines racing on the event made with channel `fresh`:
either nobody has swapped yet, or exactly one goroutine `w` holds the
successful swap (having closed `C` or being about to) and the others have not
started or have lost. -/
def Race.inv (fresh n : Nat) (r : Race) : Prop :=
  (r.ev.signalled = 0 ∧ r.ev.C = some { id := fresh, closed := false } ∧ r.trace = [] ∧
    ∀ j, r.pcs j = PC.start) ∨
  (r.ev.signalled = 1 ∧ ∃ w, w < n ∧
    ((r.pcs w = PC.won ∧ r.ev.C = some { id := fresh, closed := false } ∧ r.trace = []) ∨
     (r.pcs w = PC.closed ∧ r.ev.C = some { id := fresh, closed := true } ∧
       r.trace = [Effect.close fresh])) ∧
    ∀ j, j ≠ w → r.pcs j = PC.start ∨ r.pcs j = PC.lost)

/-- The flag mirrors the channel made by the constructor, of identity `fresh`. -/
def OneShotEvent.mirrors (fresh : Nat) (ev : OneShotEvent) : Prop :=
  (ev.signalled = 0 ∧ ev.C = some { id := fresh, closed := false }) ∨
  (ev.signalled = 1 ∧ ev.C = some { id := fresh, closed := true })

/-- The mutex of the group is free and the flag of its event mirrors the
channel made by the constructor. -/
def Group.mirrors (fresh : Nat) (g : Group) : Prop :=
  g.mu = false ∧ g.event.mirrors fresh

/-! ## OneShotEvent: lemmas -/

theorem signal_of_zero (ev : OneShotEvent) (id : Nat) (h0 : ev.signalled = 0)
    (hC : ev.C = some { id := id, closed := false }) :
    ev.Signal = { state := { C := some { id := id, closed := true }, signalled := 1 },
                  trace := [Effect.close id], status := Status.returned () } := by
  cases ev with
  | mk C sg =>
    simp only at h0 hC
    subst h0 hC
    simp [OneShotEvent.Signal, OneShotEvent.cas, CompareAndSwapInt32, OneShotEvent.closeC]

theorem signal_of_one (ev : OneShotEvent) (h1 : ev.signalled = 1) :
    ev.Signal = { state := ev, trace := [], status := Status.returned () } := by
  cases ev with
  | mk C sg =>
    simp only at h1
    subst h1
    simp [OneShotEvent.Signal, OneShotEvent.cas, CompareAndSwapInt32]

theorem new_mirrored (fresh : Nat) : (NewOneShotEvent fresh).mirrored :=
  Or.inl ⟨rfl, fresh, rfl⟩

theorem mirrored_wellFormed (ev : OneShotEvent) (h : ev.mirrored) : ev.wellFormed := by
  rcases h with h | h
  · exact Or.inl h
  · exact Or.inr h.1

theorem call_wellFormed (op : EventOp) (ev : OneShotEvent) (h : ev.wellFormed) :
    (OneShotEvent.call op ev).state.wellFormed := by
  cases op with
  | Init fresh =>
    rcases h with ⟨h0, _⟩ | h1
    · exact Or.inl ⟨h0, fresh, rfl⟩
    · exact Or.inr h1
  | Signal =>
    rcases h with ⟨h0, id, hC⟩ | h1
    · simp only [OneShotEvent.call, signal_of_zero ev id h0 hC]
      exact Or.inr rfl
    · simp only [OneShotEvent.call, signal_of_one ev h1]
      exact Or.inr h1
  | IsSignalled => exact h
  | Wait =>
    simp only [OneShotEvent.call, OneShotEvent.Wait]
    split <;> exact h
  | Sleep d elapsed pickTimer => exact h

theorem call_mirrored (op : EventOp) (ev : OneShotEvent) (hop : op.isInit = false)
    (h : ev.mirrored) : (OneShotEvent.call op ev).state.mirrored := by
  cases op with
  | Init fresh => simp [EventOp.isInit] at hop
  | Signal =>
    rcases h with ⟨h0, id, hC⟩ | ⟨h1, hC⟩
    · simp only [OneShotEvent.call, signal_of_zero ev id h0 hC]
      exact Or.inr ⟨rfl, id, rfl⟩
    · simp only [OneShotEvent.call, signal_of_one ev h1]
      exact Or.inr ⟨h1, hC⟩
  | IsSignalled => exact h
  | Wait =>
    simp only [OneShotEvent.call, OneShotEvent.Wait]
    split <;> exact h
  | Sleep d elapsed pickTimer => exact h

theorem after_cons (op : EventOp) (ops : List EventOp) (ev : OneShotEvent) :
    ev.after (op :: ops) = (OneShotEvent.call op ev).state.after ops := rfl

theorem after_append (ops more : List EventOp) (ev : OneShotEvent) :
    ev.after (ops ++ more) = (ev.after ops).after more := by
  simp [OneShotEvent.after, List.foldl_append]

theorem after_wellFormed (ops : List EventOp) (ev : OneShotEvent) (h : ev.wellFormed) :
    (ev.after ops).wellFormed := by
  induction ops generalizing ev with
  | nil => exact h
  | cons op ops ih => exact ih _ (call_wellFormed op ev h)

theorem after_mirrored (ops : List EventOp) (ev : OneShotEvent)
    (hops : ∀ op ∈ ops, op.isInit = false) (h : ev.mirrored) : (ev.after ops).mirrored := by
  induction ops generalizing ev with
  | nil => exact h
  | cons op ops ih =>
    exact ih _ (fun o ho => hops o (List.mem_cons_of_mem _ ho))
      (call_mirrored op ev (hops op (List.mem_cons_self _ _)) h)

theorem isSignalled_iff (ev : OneShotEvent) : ev.IsSignalled = true ↔ ev.signalled = 1 := by
  simp [OneShotEvent.IsSignalled, LoadInt32]

theorem call_isSignalled (op : EventOp) (ev : OneShotEvent) (h : ev.wellFormed) :
    (OneShotEvent.call op ev).state.IsSignalled = true ↔
      (op = EventOp.Signal ∨ ev.IsSignalled = true) := by
  cases op with
  | Init fresh => simp [OneShotEvent.call, OneShotEvent.Init, OneShotEvent.IsSignalled]
  | Signal =>
    rcases h with ⟨h0, id, hC⟩ | h1
    · simp [OneShotEvent.call, signal_of_zero ev id h0 hC, OneShotEvent.IsSignalled, LoadInt32]
    · simp [OneShotEvent.call, signal_of_one ev h1, (isSignalled_iff ev).2 h1]
  | IsSignalled => simp [OneShotEvent.call]
  | Wait =>
    simp only [OneShotEvent.call, OneShotEvent.Wait]
    split <;> simp
  | Sleep d elapsed pickTimer => simp [OneShotEvent.call, OneShotEvent.Sleep]

theorem after_isSignalled (ops : List EventOp) (ev : OneShotEvent) (h : ev.wellFormed) :
    (ev.after ops).IsSignalled = true ↔ (EventOp.Signal ∈ ops ∨ ev.IsSignalled = true) := by
  induction ops generalizing ev with
  | nil => simp [OneShotEvent.after]
  | cons op ops ih =>
    rw [after_cons, ih _ (call_wellFormed op ev h), call_isSignalled op ev h, List.mem_cons]
    constructor
    · rintro (h1 | h1 | h1)
      · exact Or.inl (Or.inr h1)
      · exact Or.inl (Or.inl h1.symm)
      · exact Or.inr h1
    · rintro ((h1 | h1) | h1)
      · exact Or.inr (Or.inl h1.symm)
      · exact Or.inl h1
      · exact Or.inr (Or.inr h1)

theorem signal_twice (ev : OneShotEvent) (h : ev.wellFormed) :
    ev.Signal.andThen OneShotEvent.Signal = ev.Signal ∧
    ev.Signal.status = Status.returned () ∧ closeCount ev.Signal.trace ≤ 1 := by
  rcases h with ⟨h0, id, hC⟩ | h1
  · rw [signal_of_zero ev id h0 hC]
    refine ⟨?_, rfl, ?_⟩
    · simp [Outcome.andThen, signal_of_one]
    · simp [closeCount]
  · rw [signal_of_one ev h1]
    refine ⟨?_, rfl, ?_⟩
    · simp [Outcome.andThen, signal_of_one ev h1]
    · simp [closeCount]

theorem call_not_panicked (op : EventOp) (ev : OneShotEvent) (h : ev.wellFormed)
    (w : PanicReason) : (OneShotEvent.call op ev).status ≠ Status.panicked w := by
  cases op with
  | Init fresh => simp [OneShotEvent.call]
  | Signal => simp [OneShotEvent.call, (signal_twice ev h).2.1]
  | IsSignalled => simp [OneShotEvent.call]
  | Wait =>
    simp only [OneShotEvent.call, OneShotEvent.Wait]
    split <;> simp
  | Sleep d elapsed pickTimer => simp [OneShotEvent.call, OneShotEvent.Sleep, Status.void]

theorem run_not_panicked (ops : List EventOp) (ev : OneShotEvent) (h : ev.wellFormed)
    (w : PanicReason) : (OneShotEvent.run ops ev).status ≠ Status.panicked w := by
  induction ops generalizing ev with
  | nil => simp [OneShotEvent.run]
  | cons op ops ih =>
    have hc := call_not_panicked op ev h
    have hn := ih _ (call_wellFormed op ev h)
    simp only [OneShotEvent.run, Outcome.andThen]
    cases hs : (OneShotEvent.call op ev).status with
    | returned v => simpa using hn
    | panicked w2 => exact absurd hs (hc w2)
    | blocked => simp

theorem run_state_of_returned (ops : List EventOp) (ev : OneShotEvent)
    (h : (OneShotEvent.run ops ev).status = Status.returned ()) :
    (OneShotEvent.run ops ev).state = ev.after ops := by
  induction ops generalizing ev with
  | nil => rfl
  | cons op ops ih =>
    simp only [OneShotEvent.run, Outcome.andThen] at h ⊢
    cases hs : (OneShotEvent.call op ev).status with
    | returned v =>
      rw [hs] at h
      simp only at h ⊢
      rw [after_cons]
      exact ih _ h
    | panicked w2 => rw [hs] at h; simp at h
    | blocked => rw [hs] at h; simp at h

theorem sleep_signalled_timer_pending (ev : OneShotEvent) (d elapsed : Int) (pickTimer : Bool)
    (hm : ev.mirrored) (hs : ev.IsSignalled = true) (hd : elapsed < d) :
    (ev.Sleep d elapsed pickTimer).status = Status.returned false := by
  rcases hm with ⟨h0, _⟩ | ⟨_, id, hC⟩
  · rw [isSignalled_iff, h0] at hs
    simp at hs
  · have hnd : ¬ d ≤ elapsed := not_le.mpr hd
    simp [OneShotEvent.Sleep, hC, recvReady, hnd]

/-! ## OneShotEvent: specification theorems -/

/-- C1: on every event built by `NewOneShotEvent`, in whatever state a list of
calls has left it, two `Signal` calls in a row have the same outcome as a
single one: the same final flag and channel, the same effects (the same
closes of `C`, at most one) and the same ending, which is a return and not a
panic. -/
theorem C1_signal_twice_same_as_once (fresh : Nat) (ops : List EventOp) :
    ((NewOneShotEvent fresh).after ops).Signal.andThen OneShotEvent.Signal
      = ((NewOneShotEvent fresh).after ops).Signal ∧
    ((NewOneShotEvent fresh).after ops).Signal.status = Status.returned () ∧
    closeCount (((NewOneShotEvent fresh).after ops).Signal.andThen OneShotEvent.Signal).trace
      = closeCount ((NewOneShotEvent fresh).after ops).Signal.trace ∧
    closeCount ((NewOneShotEvent fresh).after ops).Signal.trace ≤ 1 := by
  have hw := after_wellFormed ops _ (mirrored_wellFormed _ (new_mirrored fresh))
  obtain ⟨h1, h2, h3⟩ := signal_twice _ hw
  exact ⟨h1, h2, by rw [h1], h3⟩

/-- C7: after any finite list of `Signal`, `IsSignalled`, `Wait` and `Sleep`
calls (and `Init` calls) on an event built by `NewOneShotEvent`, `IsSignalled`
is true exactly when the list contains a `Signal` call; it is false on the
fresh event; once true it stays true after any further calls; no call of the
list panics, and when one goroutine makes the calls in a row and they all
return, the state reached is the one described. -/
theorem C7_isSignalled_iff_signal_called (fresh : Nat) (ops : List EventOp) :
    (((NewOneShotEvent fresh).after ops).IsSignalled = true ↔ EventOp.Signal ∈ ops) ∧
    (NewOneShotEvent fresh).IsSignalled = false ∧
    (∀ more : List EventOp, ((NewOneShotEvent fresh).after ops).IsSignalled = true →
      ((NewOneShotEvent fresh).after (ops ++ more)).IsSignalled = true) ∧
    (∀ w, (OneShotEvent.run ops (NewOneShotEvent fresh)).status ≠ Status.panicked w) ∧
    ((OneShotEvent.run ops (NewOneShotEvent fresh)).status = Status.returned () →
      (OneShotEvent.run ops (NewOneShotEvent fresh)).state = (NewOneShotEvent fresh).after ops) := by
  have hw := mirrored_wellFormed _ (new_mirrored fresh)
  have hnew : (NewOneShotEvent fresh).IsSignalled = false := rfl
  refine ⟨?_, hnew, ?_, run_not_panicked ops _ hw, run_state_of_returned ops _⟩
  · rw [after_isSignalled ops _ hw, hnew]
    simp
  · intro more h
    rw [after_isSignalled _ _ hw] at h ⊢
    rcases h with h | h
    · exact Or.inl (List.mem_append_left _ h)
    · exact Or.inr h

/-- C9: in every state reached from `NewOneShotEvent` by calls other than
`Init` (completed `Signal` calls, with any `IsSignalled`, `Wait` and `Sleep`
calls in between), the channel `C` is closed exactly when the flag is 1, so
`Wait` returns at once exactly when `IsSignalled` is true and blocks when it
is false. -/
theorem C9_flag_mirrors_channel (fresh : Nat) (ops : List EventOp)
    (hops : ∀ op ∈ ops, op.isInit = false) :
    (recvReady ((NewOneShotEvent fresh).after ops).C = true ↔
      ((NewOneShotEvent fresh).after ops).signalled = 1) ∧
    (((NewOneShotEvent fresh).after ops).Wait.status = Status.returned () ↔
      ((NewOneShotEvent fresh).after ops).IsSignalled = true) ∧
    (((NewOneShotEvent fresh).after ops).IsSignalled = false →
      ((NewOneShotEvent fresh).after ops).Wait.status = Status.blocked) := by
  have hm := after_mirrored ops _ hops (new_mirrored fresh)
  rcases hm with ⟨h0, id, hC⟩ | ⟨h1, id, hC⟩
  · simp [OneShotEvent.Wait, OneShotEvent.IsSignalled, LoadInt32, recvReady, h0, hC]
  · simp [OneShotEvent.Wait, OneShotEvent.IsSignalled, LoadInt32, recvReady, h1, hC]

/-- Witness of C9: a fresh event after `Signal`, `Wait`, `Signal`. -/
theorem C9_flag_mirrors_channel_witness :
    (∀ op ∈ [EventOp.Signal, EventOp.Wait, EventOp.Signal], op.isInit = false) ∧
    ((recvReady ((NewOneShotEvent 7).after [EventOp.Signal, EventOp.Wait, EventOp.Signal]).C = true ↔
      ((NewOneShotEvent 7).after [EventOp.Signal, EventOp.Wait, EventOp.Signal]).signalled = 1) ∧
    (((NewOneShotEvent 7).after [EventOp.Signal, EventOp.Wait, EventOp.Signal]).Wait.status
        = Status.returned () ↔
      ((NewOneShotEvent 7).after [EventOp.Signal, EventOp.Wait, EventOp.Signal]).IsSignalled = true) ∧
    (((NewOneShotEvent 7).after [EventOp.Signal, EventOp.Wait, EventOp.Signal]).IsSignalled = false →
      ((NewOneShotEvent 7).after [EventOp.Signal, EventOp.Wait, EventOp.Signal]).Wait.status
        = Status.blocked)) :=
  ⟨by decide, C9_flag_mirrors_channel 7 [EventOp.Signal, EventOp.Wait, EventOp.Signal] (by decide)⟩

/-- C10: the code at the failing input.  On an event signalled before the call,
`Sleep(0)` and `Sleep(-5)` find both cases of the `select` ready (the timer is
already due, `C` is closed); when the runtime picks the timer case the call
returns true, not false. -/
theorem C10_sleep_due_timer_on_signalled_returns_true :
    (NewOneShotEvent 0).Signal.state.IsSignalled = true ∧
    ((NewOneShotEvent 0).Signal.state.Sleep 0 0 true).status = Status.returned true ∧
    ((NewOneShotEvent 0).Signal.state.Sleep (-5) 0 true).status = Status.returned true ∧
    ((NewOneShotEvent 0).Signal.state.Sleep 0 0 false).status = Status.returned false := by
  decide

/-! ## Group: lemmas -/

theorem int32_of_range (x : Int) (h1 : -2147483648 ≤ x) (h2 : x < 2147483648) :
    int32 x = x := by
  unfold int32
  omega

theorem int32_neg_one : int32 (-1) = -1 := by decide

theorem int32_range (x : Int) : -2147483648 ≤ int32 x ∧ int32 x < 2147483648 := by
  unfold int32
  omega

theorem add_state (g : Group) (d : Int) :
    (g.Add d).state = { g with wg := int32 (g.wg + d) } := by
  simp only [Group.Add]
  split <;> rfl

theorem group_run_cons (op : GroupOp) (ops : List GroupOp) (g : Group) :
    Group.run (op :: ops) g = (Group.call op g).andThen (Group.run ops) := rfl

theorem group_call_add (d : Int) (g : Group) : Group.call (GroupOp.Add d) g = g.Add d := rfl

theorem andThen_status_of_returned {σ α β : Type} (o : Outcome σ α) (f : σ → Outcome σ β)
    (v : α) (h : o.status = Status.returned v) :
    (o.andThen f).status = (f o.state).status := by
  simp [Outcome.andThen, h]

theorem wellFormed_setCounter (g : Group) (w : Int) (h : g.wellFormed) :
    ({ g with wg := w } : Group).wellFormed := h

theorem errSignalled_setCounter (g : Group) (w : Int) (h : g.errSignalled) :
    ({ g with wg := w } : Group).errSignalled := h

theorem mirrors_setCounter (fresh : Nat) (g : Group) (w : Int) (h : g.mirrors fresh) :
    ({ g with wg := w } : Group).mirrors fresh := h

theorem add_trace (g : Group) (d : Int) : (g.Add d).trace = [] := by
  simp only [Group.Add]
  split <;> rfl

theorem add_status (g : Group) (d : Int) (h : 0 ≤ int32 (g.wg + d)) :
    (g.Add d).status = Status.returned () := by
  simp [Group.Add, not_lt.mpr h]

theorem group_signal_of_zero (g : Group) (id : Nat) (h0 : g.event.signalled = 0)
    (hC : g.event.C = some { id := id, closed := false }) :
    g.Signal = { state := { g with event := { C := some { id := id, closed := true },
                                              signalled := 1 } },
                 trace := [Effect.close id], status := Status.returned () } := by
  simp [Group.Signal, signal_of_zero g.event id h0 hC]

theorem group_signal_of_one (g : Group) (h1 : g.event.signalled = 1) :
    g.Signal = { state := g, trace := [], status := Status.returned () } := by
  simp [Group.Signal, signal_of_one g.event h1]

theorem record_nil (g : Group) :
    g.record none = { state := g, trace := [], status := Status.returned () } := rfl

theorem record_first (g : Group) (e id : Nat) (hmu : g.mu = false) (herr : g.err = none)
    (h0 : g.event.signalled = 0) (hC : g.event.C = some { id := id, closed := false }) :
    g.record (some e) =
      { state := { g with err := some e,
                          event := { C := some { id := id, closed := true }, signalled := 1 } },
        trace := [Effect.close id], status := Status.returned () } := by
  obtain ⟨ev, wg, mu, err⟩ := g
  simp only at hmu herr h0 hC
  subst hmu herr
  simp [Group.record, Group.Signal, signal_of_zero ev id h0 hC]

theorem record_first_signalled (g : Group) (e : Nat) (hmu : g.mu = false) (herr : g.err = none)
    (h1 : g.event.signalled = 1) :
    g.record (some e) =
      { state := { g with err := some e }, trace := [], status := Status.returned () } := by
  obtain ⟨ev, wg, mu, err⟩ := g
  simp only at hmu herr h1
  subst hmu herr
  simp [Group.record, Group.Signal, signal_of_one ev h1]

theorem record_later (g : Group) (e e0 : Nat) (hmu : g.mu = false) (herr : g.err = some e0) :
    g.record (some e) = { state := g, trace := [], status := Status.returned () } := by
  obtain ⟨ev, wg, mu, err⟩ := g
  simp only at hmu herr
  subst hmu herr
  simp [Group.record]

theorem record_returned (g : Group) (e : error) (h : g.wellFormed) :
    (g.record e).status = Status.returned () := by
  obtain ⟨hmu, hev⟩ := h
  cases e with
  | none => rfl
  | some e =>
    cases herr : g.err with
    | some e0 => rw [record_later g e e0 hmu herr]
    | none =>
      rcases hev with ⟨h0, id, hC⟩ | h1
      · rw [record_first g e id hmu herr h0 hC]
      · rw [record_first_signalled g e hmu herr h1]

theorem record_err (g : Group) (e : error) (h : g.wellFormed) :
    (g.record e).state.err = firstError [g.err, e] := by
  obtain ⟨hmu, hev⟩ := h
  cases e with
  | none => cases herr : g.err <;> simp [record_nil, firstError, herr]
  | some e =>
    cases herr : g.err with
    | some e0 => rw [record_later g e e0 hmu herr]; simp [firstError, herr]
    | none =>
      rcases hev with ⟨h0, id, hC⟩ | h1
      · rw [record_first g e id hmu herr h0 hC]; simp [firstError]
      · rw [record_first_signalled g e hmu herr h1]; simp [firstError]

theorem record_wellFormed (g : Group) (e : error) (h : g.wellFormed) :
    (g.record e).state.wellFormed ∧ (g.record e).state.wg = g.wg := by
  obtain ⟨hmu, hev⟩ := h
  cases e with
  | none => exact ⟨⟨hmu, hev⟩, rfl⟩
  | some e =>
    cases herr : g.err with
    | some e0 => rw [record_later g e e0 hmu herr]; exact ⟨⟨hmu, hev⟩, rfl⟩
    | none =>
      rcases hev with ⟨h0, id, hC⟩ | h1
      · rw [record_first g e id hmu herr h0 hC]; exact ⟨⟨hmu, Or.inr rfl⟩, rfl⟩
      · rw [record_first_signalled g e hmu herr h1]; exact ⟨⟨hmu, Or.inr h1⟩, rfl⟩

theorem done_state (g : Group) (e : error) (h : g.wellFormed) :
    (g.Done e).state = { (g.record e).state with wg := int32 (g.wg + -1) } ∧
    (g.Done e).trace = (g.record e).trace := by
  have hr := record_returned g e h
  have hw := (record_wellFormed g e h).2
  simp [Group.Done, Outcome.andThen, hr, add_state, add_trace, hw]

theorem done_status (g : Group) (e : error) (h : g.wellFormed) (hwg : 1 ≤ g.wg)
    (hmax : g.wg ≤ 2147483648) :
    (g.Done e).status = Status.returned () := by
  have hr := record_returned g e h
  have hw := (record_wellFormed g e h).2
  simp only [Group.Done, Outcome.andThen, hr]
  exact add_status _ _ (by rw [hw, int32_of_range _ (by omega) (by omega)]; omega)

theorem err_of_free (g : Group) (hmu : g.mu = false) :
    g.Err = { state := g, trace := [], status := Status.returned g.err } := by
  obtain ⟨ev, wg, mu, err⟩ := g
  simp only at hmu
  subst hmu
  simp [Group.Err]

theorem group_signal_wellFormed (g : Group) (h : g.wellFormed) :
    g.Signal.state.wellFormed ∧ g.Signal.state.err = g.err ∧ g.Signal.state.wg = g.wg ∧
    g.Signal.status = Status.returned () := by
  obtain ⟨hmu, hev⟩ := h
  rcases hev with ⟨h0, id, hC⟩ | h1
  · rw [group_signal_of_zero g id h0 hC]
    exact ⟨⟨hmu, Or.inr rfl⟩, rfl, rfl, rfl⟩
  · rw [group_signal_of_one g h1]
    exact ⟨⟨hmu, Or.inr h1⟩, rfl, rfl, rfl⟩

theorem wait_state (g : Group) (hmu : g.mu = false) : g.Wait.state = g := by
  simp only [Group.Wait]
  split
  · rw [err_of_free g hmu]
  · rfl

theorem group_call_preserves (op : GroupOp) (g : Group) (h : g.wellFormed) :
    (Group.call op g).state.wellFormed ∧
    ∀ e, g.err = some e → (Group.call op g).state.err = some e := by
  cases op with
  | Add delta =>
    simp only [Group.call, add_state]
    exact ⟨h, fun e he => he⟩
  | Done err =>
    simp only [Group.call, (done_state g err h).1]
    refine ⟨⟨(record_wellFormed g err h).1.1, (record_wellFormed g err h).1.2⟩, ?_⟩
    intro e he
    simp only [record_err g err h, he, firstError]
  | Err =>
    simp only [Group.call, err_of_free g h.1]
    exact ⟨h, fun e he => he⟩
  | Signal =>
    obtain ⟨h1, h2, _, _⟩ := group_signal_wellFormed g h
    simp only [Group.call]
    exact ⟨h1, fun e he => by rw [h2, he]⟩
  | Wait =>
    simp only [Group.call, wait_state g h.1]
    exact ⟨h, fun e he => he⟩
  | SignalAndWait =>
    obtain ⟨h1, h2, _, h4⟩ := group_signal_wellFormed g h
    simp only [Group.call, Group.SignalAndWait, Outcome.andThen, h4, wait_state _ h1.1]
    exact ⟨h1, fun e he => by rw [h2, he]⟩

theorem group_after_cons (op : GroupOp) (ops : List GroupOp) (g : Group) :
    g.after (op :: ops) = (Group.call op g).state.after ops := rfl

theorem group_after_append (ops more : List GroupOp) (g : Group) :
    g.after (ops ++ more) = (g.after ops).after more := by
  simp [Group.after, List.foldl_append]

theorem group_after_preserves (ops : List GroupOp) (g : Group) (h : g.wellFormed) :
    (g.after ops).wellFormed ∧ ∀ e, g.err = some e → (g.after ops).err = some e := by
  induction ops generalizing g with
  | nil => exact ⟨h, fun e he => he⟩
  | cons op ops ih =>
    obtain ⟨h1, h2⟩ := group_call_preserves op g h
    obtain ⟨h3, h4⟩ := ih _ h1
    exact ⟨h3, fun e he => h4 e (h2 e he)⟩

theorem firstError_cons_cons (a b : error) (es : List error) :
    firstError (a :: b :: es) = firstError (firstError [a, b] :: es) := by
  cases a <;> cases b <;> simp [firstError]

theorem firstError_eq_none (es : List error) :
    firstError es = none ↔ ∀ e ∈ es, e = none := by
  induction es with
  | nil => simp [firstError]
  | cons a es ih => cases a <;> simp [firstError, ih]

theorem firstError_eq_some (es : List error) (e : Nat) (h : firstError es = some e) :
    ∃ pre post, es = pre ++ some e :: post ∧ ∀ x ∈ pre, x = none := by
  induction es with
  | nil => simp [firstError] at h
  | cons a es ih =>
    cases a with
    | none =>
      obtain ⟨pre, post, h1, h2⟩ := ih (by simpa [firstError] using h)
      refine ⟨none :: pre, post, by simp [h1], ?_⟩
      intro x hx
      rcases List.mem_cons.mp hx with hx | hx
      · exact hx
      · exact h2 x hx
    | some a =>
      simp only [firstError, Option.some.injEq] at h
      subst h
      exact ⟨[], es, rfl, by simp⟩

theorem done_list (es : List error) (g : Group) (h : g.wellFormed)
    (hwg : (es.length : Int) ≤ g.wg) (hmax : g.wg ≤ 2147483648) :
    (Group.run (es.map GroupOp.Done) g).status = Status.returned () ∧
    (g.after (es.map GroupOp.Done)).wellFormed ∧
    (g.after (es.map GroupOp.Done)).err = firstError (g.err :: es) ∧
    (g.after (es.map GroupOp.Done)).wg = g.wg - es.length := by
  induction es generalizing g with
  | nil =>
    refine ⟨rfl, h, ?_, by simp [Group.after]⟩
    cases hg : g.err <;> simp [Group.after, firstError, hg]
  | cons e es ih =>
    simp only [List.length_cons, Nat.cast_add, Nat.cast_one] at hwg
    have hs := done_status g e h (by omega) hmax
    obtain ⟨hst, _⟩ := done_state g e h
    have hwf : (g.Done e).state.wellFormed := by
      rw [hst]
      exact ⟨(record_wellFormed g e h).1.1, (record_wellFormed g e h).1.2⟩
    have hwg2 : (g.Done e).state.wg = g.wg - 1 := by
      rw [hst]
      show int32 (g.wg + -1) = g.wg - 1
      rw [int32_of_range _ (by omega) (by omega)]
      omega
    have herr : (g.Done e).state.err = firstError [g.err, e] := by
      rw [hst]
      exact record_err g e h
    obtain ⟨i1, i2, i3, i4⟩ := ih (g.Done e).state hwf (by rw [hwg2]; omega)
      (by rw [hwg2]; omega)
    refine ⟨?_, ?_, ?_, ?_⟩
    · simp only [List.map_cons, Group.run, Outcome.andThen, Group.call, hs]
      exact i1
    · simpa [group_after_cons, Group.call] using i2
    · rw [firstError_cons_cons, ← herr]
      simpa [group_after_cons, Group.call] using i3
    · simp only [List.map_cons, group_after_cons, Group.call, List.length_cons, Nat.cast_add,
        Nat.cast_one]
      rw [i4, hwg2]
      omega

theorem newGroup_wellFormed (fresh : Nat) : (NewGroup fresh).wellFormed :=
  ⟨rfl, Or.inl ⟨rfl, fresh, rfl⟩⟩

theorem newGroup_errSignalled (fresh : Nat) : (NewGroup fresh).errSignalled :=
  ⟨rfl, Or.inl ⟨rfl, rfl, fresh, rfl⟩⟩

theorem errSignalled_wellFormed (g : Group) (h : g.errSignalled) : g.wellFormed := by
  obtain ⟨hmu, h⟩ := h
  rcases h with ⟨_, h0, hC⟩ | ⟨_, h1, _⟩
  · exact ⟨hmu, Or.inl ⟨h0, hC⟩⟩
  · exact ⟨hmu, Or.inr h1⟩

theorem done_errSignalled (g : Group) (e : error) (h : g.errSignalled) :
    (g.Done e).state.errSignalled ∧
    (g.Done e).state.err = firstError [g.err, e] ∧
    (g.err ≠ none → closeCount (g.Done e).trace = 0) ∧
    (e = none → closeCount (g.Done e).trace = 0) ∧
    (g.err = none → e ≠ none → closeCount (g.Done e).trace = 1) := by
  have hwf := errSignalled_wellFormed g h
  obtain ⟨hst, htr⟩ := done_state g e hwf
  have herr : (g.Done e).state.err = firstError [g.err, e] := by
    rw [hst]
    exact record_err g e hwf
  refine ⟨?_, herr, ?_⟩
  · rw [hst]
    obtain ⟨hmu, hcase⟩ := h
    cases e with
    | none => exact ⟨hmu, hcase⟩
    | some e =>
      rcases hcase with ⟨he, h0, id, hC⟩ | ⟨he, h1, hC⟩
      · rw [record_first g e id hmu he h0 hC]
        exact ⟨hmu, Or.inr ⟨by simp, rfl, id, rfl⟩⟩
      · obtain ⟨e0, he0⟩ := Option.ne_none_iff_exists'.mp he
        rw [record_later g e e0 hmu he0]
        exact ⟨hmu, Or.inr ⟨he, h1, hC⟩⟩
  · rw [htr]
    obtain ⟨hmu, hcase⟩ := h
    cases e with
    | none =>
      refine ⟨?_, ?_, ?_⟩
      · intro _; simp [record_nil, closeCount]
      · intro _; simp [record_nil, closeCount]
      · intro _ hne; exact absurd rfl hne
    | some e =>
      rcases hcase with ⟨he, h0, id, hC⟩ | ⟨he, h1, hC⟩
      · rw [record_first g e id hmu he h0 hC]
        refine ⟨?_, ?_, ?_⟩
        · intro hne; exact absurd he hne
        · intro hn; simp at hn
        · intro _ _; simp [closeCount]
      · obtain ⟨e0, he0⟩ := Option.ne_none_iff_exists'.mp he
        rw [record_later g e e0 hmu he0]
        refine ⟨?_, ?_, ?_⟩
        · intro _; simp [closeCount]
        · intro _; simp [closeCount]
        · intro hn; exact absurd hn he

theorem group_effects_cons (op : GroupOp) (ops : List GroupOp) (g : Group) :
    Group.effects (op :: ops) g
      = (Group.call op g).trace ++ Group.effects ops (Group.call op g).state := rfl

theorem closeCount_append (a b : List Effect) :
    closeCount (a ++ b) = closeCount a + closeCount b := by
  simp [closeCount, List.countP_append]

theorem done_list_errSignalled (es : List error) (g : Group) (h : g.errSignalled) :
    (g.after (es.map GroupOp.Done)).errSignalled ∧
    (g.after (es.map GroupOp.Done)).err = firstError (g.err :: es) ∧
    (g.err ≠ none → closeCount (Group.effects (es.map GroupOp.Done) g) = 0) ∧
    (g.err = none → firstError es = none →
      closeCount (Group.effects (es.map GroupOp.Done) g) = 0) ∧
    (g.err = none → firstError es ≠ none →
      closeCount (Group.effects (es.map GroupOp.Done) g) = 1) := by
  induction es generalizing g with
  | nil =>
    refine ⟨h, ?_, ?_, ?_, ?_⟩
    · cases hg : g.err <;> simp [Group.after, firstError, hg]
    · intro _; rfl
    · intro _ _; rfl
    · intro _ hne; exact absurd rfl hne
  | cons e es ih =>
    obtain ⟨d1, d2, d3, d4, d5⟩ := done_errSignalled g e h
    obtain ⟨i1, i2, i3, i4, i5⟩ := ih (g.Done e).state d1
    simp only [List.map_cons, group_after_cons, group_effects_cons, Group.call,
      closeCount_append]
    refine ⟨i1, ?_, ?_, ?_, ?_⟩
    · rw [i2, d2, ← firstError_cons_cons]
    · intro hne
      have hne2 : (g.Done e).state.err ≠ none := by
        obtain ⟨e0, he0⟩ := Option.ne_none_iff_exists'.mp hne
        rw [d2, he0]; simp [firstError]
      rw [d3 hne, i3 hne2]
    · intro hn hfe
      cases e with
      | some e1 => simp [firstError] at hfe
      | none =>
        have hn2 : (g.Done none).state.err = none := by rw [d2, hn]; rfl
        rw [d4 rfl, i4 hn2 (by simpa [firstError] using hfe)]
    · intro hn hfe
      cases e with
      | some e1 =>
        have hne2 : (g.Done (some e1)).state.err ≠ none := by
          rw [d2, hn]; simp [firstError]
        rw [d5 hn (by simp), i3 hne2]
      | none =>
        have hn2 : (g.Done none).state.err = none := by rw [d2, hn]; rfl
        rw [d4 rfl, i5 hn2 (by simpa [firstError] using hfe)]

/-! ## Group: specification theorems -/

/-- C2: on a fresh group whose counter was raised to at least the number of
calls (by an amount an `int32` holds), `Done(e_1)`, ..., `Done(e_n)` all
return; whatever the counter, `Err` then returns the
first non-nil `e_i` in the order of the calls (nil exactly when every `e_i` is
nil, otherwise an `e_i` preceded by nil errors only); and in any state of a
group reached from `NewGroup`, once `Err` has returned a non-nil error it
returns that same error after any later list of `Done`, `Add`, `Signal`,
`Wait`, `SignalAndWait` and `Err` calls. -/
theorem C2_err_is_first_error (fresh : Nat) (es : List error) (k : Nat)
    (before later : List GroupOp) :
    (es.length + k < 2147483648 →
      (Group.run (GroupOp.Add (↑(es.length + k)) :: es.map GroupOp.Done)
        (NewGroup fresh)).status = Status.returned ()) ∧
    ((NewGroup fresh).after
      (GroupOp.Add (↑(es.length + k)) :: es.map GroupOp.Done)).Err.status
        = Status.returned (firstError es) ∧
    (firstError es = none ↔ ∀ e ∈ es, e = none) ∧
    (∀ e, firstError es = some e →
      ∃ pre post, es = pre ++ some e :: post ∧ ∀ x ∈ pre, x = none) ∧
    (∀ e, ((NewGroup fresh).after before).Err.status = Status.returned (some e) →
      ((NewGroup fresh).after (before ++ later)).Err.status = Status.returned (some e)) := by
  have hnew := newGroup_wellFormed fresh
  have hadd : ((NewGroup fresh).Add (↑(es.length + k))).state.errSignalled := by
    rw [add_state]
    exact errSignalled_setCounter (NewGroup fresh) _ (newGroup_errSignalled fresh)
  have herr0 : ((NewGroup fresh).Add (↑(es.length + k))).state.err = none := by
    rw [add_state]
    rfl
  obtain ⟨_, e2, _, _, _⟩ := done_list_errSignalled es _ hadd
  have herr : ((NewGroup fresh).after
      (GroupOp.Add (↑(es.length + k)) :: es.map GroupOp.Done)).err = firstError es := by
    rw [group_after_cons]
    simp only [Group.call]
    rw [e2, herr0]; rfl
  have hwf := (group_after_preserves
    (GroupOp.Add (↑(es.length + k)) :: es.map GroupOp.Done) _ hnew).1
  refine ⟨?_, ?_, firstError_eq_none es, firstError_eq_some es, ?_⟩
  · intro hk
    have hwg0 : (NewGroup fresh).wg = 0 := rfl
    have hin : int32 ((NewGroup fresh).wg + ↑(es.length + k)) = ↑(es.length + k) := by
      rw [hwg0, int32_of_range (0 + ((es.length + k : Nat) : Int)) (by omega) (by omega)]
      omega
    have haddr : ((NewGroup fresh).Add (↑(es.length + k))).status = Status.returned () := by
      apply add_status
      rw [hin]
      omega
    have hwg : ((NewGroup fresh).Add (↑(es.length + k))).state.wg = ↑(es.length + k) := by
      rw [add_state]
      exact hin
    have hle : ((es.length : Nat) : Int)
        ≤ ((NewGroup fresh).Add (↑(es.length + k))).state.wg := by
      rw [hwg]
      omega
    have hmax : ((NewGroup fresh).Add (↑(es.length + k))).state.wg ≤ 2147483648 := by
      rw [hwg]
      omega
    obtain ⟨l1, _⟩ := done_list es _ (errSignalled_wellFormed _ hadd) hle hmax
    rw [group_run_cons, group_call_add, andThen_status_of_returned _ _ () haddr]
    exact l1
  · rw [err_of_free _ hwf.1, herr]
  · intro e he
    obtain ⟨b1, _⟩ := group_after_preserves before _ hnew
    rw [err_of_free _ b1.1] at he
    simp only [Status.returned.injEq] at he
    obtain ⟨p1, p2⟩ := group_after_preserves later _ b1
    rw [group_after_append, err_of_free _ p1.1, p2 e he]

/-- C6: on a fresh group (whatever amount `m` its counter was raised by) on
which `Signal` and `SignalAndWait` are never called, after `Done(e_1)`, ...,
`Done(e_n)` the group is signalled exactly when some `e_i` is non-nil; over
the whole list the channel is closed once when some `e_i` is non-nil and never
otherwise; a `Done` with a nil error leaves the event untouched and closes
nothing; and when the counter was raised enough (by an amount an `int32`
holds) every call returns. -/
theorem C6_signalled_iff_some_error (fresh : Nat) (m : Nat) (es : List error) :
    (((NewGroup fresh).after (GroupOp.Add ↑m :: es.map GroupOp.Done)).IsSignalled = true ↔
      ∃ e ∈ es, e ≠ none) ∧
    ((∃ e ∈ es, e ≠ none) →
      closeCount (Group.effects (GroupOp.Add ↑m :: es.map GroupOp.Done) (NewGroup fresh)) = 1) ∧
    ((∀ e ∈ es, e = none) →
      closeCount (Group.effects (GroupOp.Add ↑m :: es.map GroupOp.Done) (NewGroup fresh)) = 0) ∧
    (∀ g : Group, (g.Done none).state.event = g.event ∧ (g.Done none).trace = []) ∧
    (es.length ≤ m → m < 2147483648 →
      (Group.run (GroupOp.Add ↑m :: es.map GroupOp.Done) (NewGroup fresh)).status
        = Status.returned ()) := by
  have hadd : ((NewGroup fresh).Add ↑m).state.errSignalled := by
    rw [add_state]
    exact errSignalled_setCounter (NewGroup fresh) _ (newGroup_errSignalled fresh)
  have herr0 : ((NewGroup fresh).Add ↑m).state.err = none := by
    rw [add_state]
    rfl
  obtain ⟨l1, l2, _, l4, l5⟩ := done_list_errSignalled es _ hadd
  have hex : (∃ e ∈ es, e ≠ none) ↔ firstError es ≠ none := by
    rw [Ne, firstError_eq_none]
    push_neg
    rfl
  refine ⟨?_, ?_, ?_, ?_, ?_⟩
  · rw [group_after_cons, group_call_add, hex]
    rw [herr0] at l2
    have l2b : (((NewGroup fresh).Add ↑m).state.after (es.map GroupOp.Done)).err
        = firstError es := by rw [l2]; rfl
    rw [← l2b]
    show (((NewGroup fresh).Add ↑m).state.after (es.map GroupOp.Done)).event.IsSignalled
      = true ↔ _
    rw [isSignalled_iff]
    obtain ⟨_, hc⟩ := l1
    rcases hc with ⟨he, h0, _⟩ | ⟨he, h1, _⟩
    · simp [he, h0]
    · simp [he, h1]
  · intro h
    rw [group_effects_cons, group_call_add, add_trace, List.nil_append]
    exact l5 herr0 (hex.mp h)
  · intro h
    rw [group_effects_cons, group_call_add, add_trace, List.nil_append]
    exact l4 herr0 ((firstError_eq_none es).mpr h)
  · intro g
    simp [Group.Done, record_nil, Outcome.andThen, add_state, add_trace]
  · intro hlen hm
    have hwg0 : (NewGroup fresh).wg = 0 := rfl
    have hin : int32 ((NewGroup fresh).wg + (m : Int)) = (m : Int) := by
      rw [hwg0, int32_of_range (0 + (m : Int)) (by omega) (by omega)]
      omega
    have haddr : ((NewGroup fresh).Add ↑m).status = Status.returned () := by
      apply add_status
      rw [hin]
      omega
    have hwg : ((NewGroup fresh).Add ↑m).state.wg = (m : Int) := by
      rw [add_state]
      exact hin
    have hle : ((es.length : Nat) : Int) ≤ ((NewGroup fresh).Add ↑m).state.wg := by
      rw [hwg]
      omega
    have hmax : ((NewGroup fresh).Add ↑m).state.wg ≤ 2147483648 := by
      rw [hwg]
      omega
    obtain ⟨r1, _⟩ := done_list es _ (errSignalled_wellFormed _ hadd) hle hmax
    rw [group_run_cons, group_call_add, andThen_status_of_returned _ _ () haddr]
    exact r1

/-! ## MultiOneShotEvent: lemmas -/

theorem multi_add_unsignalled (rcv : MultiOneShotEvent) (evs : List Event)
    (hmu : rcv.mu = false) (hs : rcv.signalled = false) :
    rcv.Add evs = { state := { rcv with events := rcv.events ++ evs }, trace := [],
                    status := Status.returned () } := by
  obtain ⟨mu, sg, events⟩ := rcv
  simp only at hmu hs
  subst hmu hs
  simp [MultiOneShotEvent.Add]

theorem multi_add_signalled (rcv : MultiOneShotEvent) (evs : List Event)
    (hmu : rcv.mu = false) (hs : rcv.signalled = true) :
    rcv.Add evs = { state := { rcv with mu := true }, trace := signalAll evs,
                    status := Status.returned () } := by
  obtain ⟨mu, sg, events⟩ := rcv
  simp only at hmu hs
  subst hmu hs
  simp [MultiOneShotEvent.Add]

theorem multi_signal_unsignalled (rcv : MultiOneShotEvent)
    (hmu : rcv.mu = false) (hs : rcv.signalled = false) :
    rcv.Signal = { state := { mu := false, signalled := true, events := [] },
                   trace := signalAll rcv.events, status := Status.returned () } := by
  obtain ⟨mu, sg, events⟩ := rcv
  simp only at hmu hs
  subst hmu hs
  simp [MultiOneShotEvent.Signal]

theorem multi_signal_signalled (rcv : MultiOneShotEvent)
    (hmu : rcv.mu = false) (hs : rcv.signalled = true) :
    rcv.Signal = { state := rcv, trace := [], status := Status.returned () } := by
  obtain ⟨mu, sg, events⟩ := rcv
  simp only at hmu hs
  subst hmu hs
  simp [MultiOneShotEvent.Signal]

theorem multi_call_held (op : MultiOp) (rcv : MultiOneShotEvent) (hmu : rcv.mu = true) :
    MultiOneShotEvent.call op rcv = { state := rcv, trace := [], status := Status.blocked } := by
  cases op <;>
    simp [MultiOneShotEvent.call, MultiOneShotEvent.IsSignalled, MultiOneShotEvent.Signal,
      MultiOneShotEvent.Add, hmu, Status.void]

theorem multi_run_cons (op : MultiOp) (ops : List MultiOp) (rcv : MultiOneShotEvent) :
    MultiOneShotEvent.run (op :: ops) rcv
      = (MultiOneShotEvent.call op rcv).andThen (MultiOneShotEvent.run ops) := rfl

theorem multi_run_append (ops more : List MultiOp) (rcv : MultiOneShotEvent)
    (h : (MultiOneShotEvent.run ops rcv).status = Status.returned ()) :
    MultiOneShotEvent.run (ops ++ more) rcv =
      { state := (MultiOneShotEvent.run more (MultiOneShotEvent.run ops rcv).state).state,
        trace := (MultiOneShotEvent.run ops rcv).trace ++
          (MultiOneShotEvent.run more (MultiOneShotEvent.run ops rcv).state).trace,
        status := (MultiOneShotEvent.run more (MultiOneShotEvent.run ops rcv).state).status } := by
  induction ops generalizing rcv with
  | nil => simp [MultiOneShotEvent.run]
  | cons op ops ih =>
    rw [List.cons_append, multi_run_cons, multi_run_cons]
    rw [multi_run_cons] at h
    simp only [Outcome.andThen] at h ⊢
    cases hs : (MultiOneShotEvent.call op rcv).status with
    | returned v =>
      rw [hs] at h
      simp only at h ⊢
      rw [ih _ h]
      simp
    | panicked w => rw [hs] at h; simp at h
    | blocked => rw [hs] at h; simp at h

theorem multi_run_adds (ls : List (List Event)) (rcv : MultiOneShotEvent)
    (hmu : rcv.mu = false) (hs : rcv.signalled = false) :
    MultiOneShotEvent.run (ls.map MultiOp.Add) rcv =
      { state := { rcv with events := rcv.events ++ ls.flatten }, trace := [],
        status := Status.returned () } := by
  induction ls generalizing rcv with
  | nil => simp [MultiOneShotEvent.run]
  | cons l ls ih =>
    rw [List.map_cons, multi_run_cons]
    simp only [MultiOneShotEvent.call, multi_add_unsignalled rcv l hmu hs, Outcome.andThen]
    rw [ih { rcv with events := rcv.events ++ l } hmu hs]
    simp

theorem multi_run_signals_signalled (k : Nat) (rcv : MultiOneShotEvent)
    (hmu : rcv.mu = false) (hs : rcv.signalled = true) :
    MultiOneShotEvent.run (List.replicate k MultiOp.Signal) rcv =
      { state := rcv, trace := [], status := Status.returned () } := by
  induction k with
  | zero => simp [MultiOneShotEvent.run]
  | succ k ih =>
    rw [List.replicate_succ, multi_run_cons]
    simp only [MultiOneShotEvent.call, multi_signal_signalled rcv hmu hs, Outcome.andThen]
    rw [ih]
    simp

theorem signalCount_signalAll (h : Event) (evs : List Event) :
    signalCount h (signalAll evs) = evs.count h := by
  induction evs with
  | nil => rfl
  | cons a evs ih =>
    simp only [signalCount, signalAll, List.map_cons, List.count_cons] at ih ⊢
    rw [ih]
    simp

/-! ## MultiOneShotEvent: specification theorems -/

/-- C3, as amended: on a fanout that has not been signalled, any list of `Add`
calls returns without issuing a single `Signal` call, and over `k + 1`
subsequent `Signal` calls on the fanout (which all return) the handles receive
one `Signal` call per registration, in registration order, all of them issued
by the first fanout `Signal`: a handle receives as many calls as it was
registered times, exactly one when it was registered once. -/
theorem C3_handles_added_before_signal (ls : List (List Event)) (k : Nat) :
    (MultiOneShotEvent.run (ls.map MultiOp.Add) MultiOneShotEvent.zero).status
      = Status.returned () ∧
    (MultiOneShotEvent.run (ls.map MultiOp.Add) MultiOneShotEvent.zero).trace = [] ∧
    (MultiOneShotEvent.run (ls.map MultiOp.Add ++ [MultiOp.Signal])
      MultiOneShotEvent.zero).trace = signalAll ls.flatten ∧
    (MultiOneShotEvent.run (ls.map MultiOp.Add ++ List.replicate (k + 1) MultiOp.Signal)
      MultiOneShotEvent.zero).status = Status.returned () ∧
    (MultiOneShotEvent.run (ls.map MultiOp.Add ++ List.replicate (k + 1) MultiOp.Signal)
      MultiOneShotEvent.zero).trace = signalAll ls.flatten ∧
    (∀ h, signalCount h (MultiOneShotEvent.run
        (ls.map MultiOp.Add ++ List.replicate (k + 1) MultiOp.Signal)
        MultiOneShotEvent.zero).trace = ls.flatten.count h) ∧
    (ls.flatten.Nodup → ∀ h ∈ ls.flatten, signalCount h (MultiOneShotEvent.run
        (ls.map MultiOp.Add ++ List.replicate (k + 1) MultiOp.Signal)
        MultiOneShotEvent.zero).trace = 1) := by
  have hadds := multi_run_adds ls MultiOneShotEvent.zero rfl rfl
  have hret : (MultiOneShotEvent.run (ls.map MultiOp.Add) MultiOneShotEvent.zero).status
      = Status.returned () := by rw [hadds]
  have hall : ∀ n, MultiOneShotEvent.run
      (ls.map MultiOp.Add ++ List.replicate (n + 1) MultiOp.Signal) MultiOneShotEvent.zero
        = { state := { mu := false, signalled := true, events := [] },
            trace := signalAll ls.flatten, status := Status.returned () } := by
    intro n
    rw [multi_run_append _ _ _ hret, hadds, List.replicate_succ, multi_run_cons]
    simp only [MultiOneShotEvent.call, Outcome.andThen]
    rw [multi_signal_unsignalled _ rfl rfl]
    simp only
    rw [multi_run_signals_signalled n _ rfl rfl]
    simp [MultiOneShotEvent.zero]
  have hone := hall 0
  simp only [Nat.zero_add, List.replicate_one] at hone
  refine ⟨hret, by rw [hadds], by rw [hone], by rw [hall k], by rw [hall k], ?_, ?_⟩
  · intro h
    rw [hall k]
    exact signalCount_signalAll h _
  · intro hnd h hh
    rw [hall k]
    simp only
    rw [signalCount_signalAll]
    exact List.count_eq_one_of_mem hnd hh

/-- C3, counterexample to the claim as stated: after `Add(1, 1)` the fanout
`Signal` calls `Signal` on handle 1 twice, not exactly once; the pending list
keeps every registration and nothing removes duplicates. -/
theorem C3_handle_registered_twice_is_signalled_twice :
    (MultiOneShotEvent.run [MultiOp.Add [1, 1], MultiOp.Signal]
      MultiOneShotEvent.zero).status = Status.returned () ∧
    (MultiOneShotEvent.run [MultiOp.Add [1, 1], MultiOp.Signal]
      MultiOneShotEvent.zero).trace = [Effect.signal 1, Effect.signal 1] ∧
    signalCount 1 (MultiOneShotEvent.run [MultiOp.Add [1, 1], MultiOp.Signal]
      MultiOneShotEvent.zero).trace = 2 ∧
    signalCount 1 (MultiOneShotEvent.run [MultiOp.Add [1, 1], MultiOp.Signal]
      MultiOneShotEvent.zero).trace ≠ 1 := by
  decide

/-- C4: the code at the failing input.  On the fanout signalled by `Signal`, the
first late `Add(1)` signals its handle and returns, still holding the mutex;
the next `Add(2)` blocks on `rcv.mu.Lock()`: handle 2 is neither signalled
nor appended to the pending list. -/
theorem C4_second_late_add_neither_signals_nor_enqueues :
    (MultiOneShotEvent.run [MultiOp.Signal, MultiOp.Add [1]]
      MultiOneShotEvent.zero).trace = [Effect.signal 1] ∧
    (MultiOneShotEvent.run [MultiOp.Signal, MultiOp.Add [1], MultiOp.Add [2]]
      MultiOneShotEvent.zero).status = Status.blocked ∧
    signalCount 2 (MultiOneShotEvent.run [MultiOp.Signal, MultiOp.Add [1], MultiOp.Add [2]]
      MultiOneShotEvent.zero).trace = 0 ∧
    (MultiOneShotEvent.run [MultiOp.Signal, MultiOp.Add [1], MultiOp.Add [2]]
      MultiOneShotEvent.zero).state.events = [] := by
  decide

/-- C5: the code at the failing input.  `Add(1)` on a signalled fanout returns
with the mutex still held (it was held while handle 1 was signalled), and a
following `IsSignalled`, `Signal` or `Add` on the same fanout blocks. -/
theorem C5_late_add_returns_with_mutex_held :
    (MultiOneShotEvent.zero.Signal.state.Add [1]).status = Status.returned () ∧
    (MultiOneShotEvent.zero.Signal.state.Add [1]).state.mu = true ∧
    (MultiOneShotEvent.zero.Signal.state.Add [1]).state.IsSignalled.status = Status.blocked ∧
    (MultiOneShotEvent.zero.Signal.state.Add [1]).state.Signal.status = Status.blocked ∧
    ((MultiOneShotEvent.zero.Signal.state.Add [1]).state.Add [2]).status = Status.blocked := by
  decide

/-! ## Racing Signal calls: lemmas -/

theorem cas_of_zero (ev : OneShotEvent) (h0 : ev.signalled = 0) :
    ev.cas = ({ ev with signalled := 1 }, true) := by
  simp [OneShotEvent.cas, CompareAndSwapInt32, h0]

theorem cas_of_one (ev : OneShotEvent) (h1 : ev.signalled = 1) : ev.cas = (ev, false) := by
  obtain ⟨C, sg⟩ := ev
  simp only at h1
  subst h1
  simp [OneShotEvent.cas, CompareAndSwapInt32]

theorem closeC_of_open (ev : OneShotEvent) (id : Nat)
    (hC : ev.C = some { id := id, closed := false }) :
    ev.closeC = { state := { ev with C := some { id := id, closed := true } },
                  trace := [Effect.close id], status := Status.returned () } := by
  simp [OneShotEvent.closeC, hC]

theorem race_init_inv (fresh n : Nat) : Race.inv fresh n (Race.init fresh) :=
  Or.inl ⟨rfl, rfl, rfl, fun _ => rfl⟩

theorem race_step_inv (fresh n : Nat) (r : Race) (i : Nat) (h : Race.inv fresh n r) :
    Race.inv fresh n (Race.step n r i) := by
  unfold Race.step
  by_cases hi : i < n
  · rw [if_pos hi]
    rcases h with ⟨h0, hC, htr, hall⟩ | ⟨h1, w, hw, hwin, hothers⟩
    · rw [hall i]
      simp only [cas_of_zero r.ev h0]
      refine Or.inr ⟨rfl, i, hi, Or.inl ⟨by simp, hC, htr⟩, ?_⟩
      intro j hj
      left
      simp [Function.update_noteq hj, hall j]
    · by_cases hiw : i = w
      · subst hiw
        rcases hwin with ⟨hpc, hC, htr⟩ | ⟨hpc, hC, htr⟩
        · rw [hpc]
          simp only [closeC_of_open r.ev fresh hC]
          refine Or.inr ⟨h1, i, hi, Or.inr ⟨by simp, rfl, by simp [htr]⟩, ?_⟩
          intro j hj
          simpa [Function.update_noteq hj] using hothers j hj
        · rw [hpc]
          exact Or.inr ⟨h1, i, hi, Or.inr ⟨hpc, hC, htr⟩, hothers⟩
      · rcases hothers i hiw with hpc | hpc
        · rw [hpc]
          simp only [cas_of_one r.ev h1]
          refine Or.inr ⟨h1, w, hw, ?_, ?_⟩
          · have hwi : w ≠ i := fun h => hiw h.symm
            simpa [Function.update_noteq hwi] using hwin
          · intro j hj
            by_cases hji : j = i
            · subst hji
              right
              simp
            · simpa [Function.update_noteq hji] using hothers j hj
        · rw [hpc]
          exact Or.inr ⟨h1, w, hw, hwin, hothers⟩
  · rw [if_neg hi]
    exact h

theorem race_run_inv (fresh n : Nat) (sched : List Nat) (r : Race) (h : Race.inv fresh n r) :
    Race.inv fresh n (Race.run n sched r) := by
  induction sched generalizing r with
  | nil => exact h
  | cons i sched ih => exact ih _ (race_step_inv fresh n r i h)

theorem race_step_rank_other (n : Nat) (r : Race) (i j : Nat) (hij : j ≠ i) :
    (Race.step n r i).pcs j = r.pcs j := by
  unfold Race.step
  by_cases hi : i < n
  · rw [if_pos hi]
    cases hpc : r.pcs i with
    | start =>
      simp only
      split <;> simp [Function.update_noteq hij]
    | won =>
      simp only
      split <;> simp [Function.update_noteq hij]
    | closed => rfl
    | lost => rfl
    | panicked => rfl
  · rw [if_neg hi]

theorem race_step_rank_self (n : Nat) (r : Race) (i : Nat) (hi : i < n) :
    min 2 ((r.pcs i).rank + 1) ≤ ((Race.step n r i).pcs i).rank := by
  unfold Race.step
  rw [if_pos hi]
  cases hpc : r.pcs i with
  | start =>
    simp only
    split <;> simp [PC.rank]
  | won =>
    simp only
    split <;> simp [PC.rank]
  | closed => simp [hpc, PC.rank]
  | lost => simp [hpc, PC.rank]
  | panicked => simp [hpc, PC.rank]

theorem race_run_rank (n : Nat) (sched : List Nat) (r : Race) (j : Nat) (hj : j < n) :
    min 2 ((r.pcs j).rank + sched.count j) ≤ ((Race.run n sched r).pcs j).rank := by
  induction sched generalizing r with
  | nil => simp [Race.run]
  | cons i sched ih =>
    have h := ih (Race.step n r i)
    simp only [Race.run, List.foldl_cons] at h ⊢
    by_cases hij : i = j
    · subst hij
      have hs := race_step_rank_self n r i hj
      simp only [List.count_cons_self]
      omega
    · have hji : j ≠ i := fun h => hij h.symm
      rw [race_step_rank_other n r i j hji] at h
      rw [List.count_cons_of_ne hji]
      exact h

theorem race_inv_safe (fresh n : Nat) (r : Race) (h : Race.inv fresh n r) (j : Nat) :
    r.pcs j ≠ PC.panicked ∧ closeCount r.trace ≤ 1 := by
  rcases h with ⟨_, _, htr, hall⟩ | ⟨_, w, _, hwin, hothers⟩
  · rw [hall j, htr]
    simp [closeCount]
  · have htrace : closeCount r.trace ≤ 1 := by
      rcases hwin with ⟨_, _, htr⟩ | ⟨_, _, htr⟩ <;> rw [htr] <;> simp [closeCount]
    refine ⟨?_, htrace⟩
    by_cases hjw : j = w
    · subst hjw
      rcases hwin with ⟨hpc, _, _⟩ | ⟨hpc, _, _⟩ <;> rw [hpc] <;> simp
    · rcases hothers j hjw with hpc | hpc <;> rw [hpc] <;> simp

/-! ## Racing Signal calls: specification theorem -/

/-- C8: `n ≥ 1` goroutines race `Signal` on one event built by
`NewOneShotEvent`, their compare-and-swap and close steps interleaved by any
schedule that lets every call finish.  Then exactly one call has won the
compare-and-swap and performed `close(C)`, every other call has lost it and
returned without closing, the only effect is one close of `C`, and the event
is signalled.  At every point of every interleaving no call has panicked and
`C` has been closed at most once. -/
theorem C8_racing_signals_close_once (fresh n : Nat) (sched : List Nat) (hn : 1 ≤ n)
    (hc : completeSchedule n sched) :
    (∃ w, w < n ∧ (Race.run n sched (Race.init fresh)).pcs w = PC.closed ∧
      ∀ j, j < n → j ≠ w → (Race.run n sched (Race.init fresh)).pcs j = PC.lost) ∧
    (Race.run n sched (Race.init fresh)).trace = [Effect.close fresh] ∧
    closeCount (Race.run n sched (Race.init fresh)).trace = 1 ∧
    (Race.run n sched (Race.init fresh)).ev.IsSignalled = true ∧
    recvReady (Race.run n sched (Race.init fresh)).ev.C = true ∧
    (∀ (any : List Nat) (j : Nat),
      (Race.run n any (Race.init fresh)).pcs j ≠ PC.panicked ∧
      closeCount (Race.run n any (Race.init fresh)).trace ≤ 1) := by
  have hinv := race_run_inv fresh n sched _ (race_init_inv fresh n)
  have hdone : ∀ j, j < n → ((Race.run n sched (Race.init fresh)).pcs j).rank = 2 := by
    intro j hj
    have h1 := race_run_rank n sched (Race.init fresh) j hj
    have h2 := hc j hj
    have h3 : ((Race.run n sched (Race.init fresh)).pcs j).rank ≤ 2 := by
      cases (Race.run n sched (Race.init fresh)).pcs j <;> simp [PC.rank]
    omega
  have hsafe : ∀ (any : List Nat) (j : Nat),
      (Race.run n any (Race.init fresh)).pcs j ≠ PC.panicked ∧
      closeCount (Race.run n any (Race.init fresh)).trace ≤ 1 := fun any j =>
    race_inv_safe fresh n _ (race_run_inv fresh n any _ (race_init_inv fresh n)) j
  rcases hinv with ⟨_, _, _, hall⟩ | ⟨h1, w, hw, hwin, hothers⟩
  · have h0 := hdone 0 (by omega)
    rw [hall 0] at h0
    simp [PC.rank] at h0
  · rcases hwin with ⟨hpc, _, _⟩ | ⟨hpc, hC, htr⟩
    · have hw2 := hdone w hw
      rw [hpc] at hw2
      simp [PC.rank] at hw2
    · refine ⟨⟨w, hw, hpc, ?_⟩, htr, ?_, ?_, ?_, hsafe⟩
      · intro j hj hjw
        rcases hothers j hjw with hs | hl
        · have hj2 := hdone j hj
          rw [hs] at hj2
          simp [PC.rank] at hj2
        · exact hl
      · rw [htr]; simp [closeCount]
      · rw [isSignalled_iff]; exact h1
      · rw [hC]; rfl

/-- Witness of C8: three goroutines under the schedule 0, 1, 2, 2, 1, 0. -/
theorem C8_racing_signals_close_once_witness :
    1 ≤ 3 ∧ completeSchedule 3 [0, 1, 2, 2, 1, 0] ∧
    ((∃ w, w < 3 ∧ (Race.run 3 [0, 1, 2, 2, 1, 0] (Race.init 5)).pcs w = PC.closed ∧
      ∀ j, j < 3 → j ≠ w → (Race.run 3 [0, 1, 2, 2, 1, 0] (Race.init 5)).pcs j = PC.lost) ∧
    (Race.run 3 [0, 1, 2, 2, 1, 0] (Race.init 5)).trace = [Effect.close 5] ∧
    closeCount (Race.run 3 [0, 1, 2, 2, 1, 0] (Race.init 5)).trace = 1 ∧
    (Race.run 3 [0, 1, 2, 2, 1, 0] (Race.init 5)).ev.IsSignalled = true ∧
    recvReady (Race.run 3 [0, 1, 2, 2, 1, 0] (Race.init 5)).ev.C = true ∧
    (∀ (any : List Nat) (j : Nat),
      (Race.run 3 any (Race.init 5)).pcs j ≠ PC.panicked ∧
      closeCount (Race.run 3 any (Race.init 5)).trace ≤ 1)) :=
  ⟨by decide, by intro i hi; interval_cases i <;> decide,
   C8_racing_signals_close_once 5 3 [0, 1, 2, 2, 1, 0] (by decide)
     (by intro i hi; interval_cases i <;> decide)⟩

/-! ## MultiOneShotEvent: pending list and late registrations -/

theorem fanout_invoke_drained (op : FanoutOp) (rcv : MultiOneShotEvent)
    (h : rcv.signalled = true → rcv.events = []) :
    (MultiOneShotEvent.invoke op rcv).state.signalled = true →
      (MultiOneShotEvent.invoke op rcv).state.events = [] := by
  obtain ⟨mu, sg, evs⟩ := rcv
  cases mu <;> cases sg <;> cases op <;>
    simp_all [MultiOneShotEvent.invoke, MultiOneShotEvent.call, MultiOneShotEvent.IsSignalled,
      MultiOneShotEvent.Signal, MultiOneShotEvent.Add, MultiOneShotEvent.NewEvent,
      MultiOneShotEvent.NewGroup, Status.void]

theorem fanout_after_drained (ops : List FanoutOp) (rcv : MultiOneShotEvent)
    (h : rcv.signalled = true → rcv.events = []) :
    (rcv.after ops).signalled = true → (rcv.after ops).events = [] := by
  induction ops generalizing rcv with
  | nil => exact h
  | cons op ops ih => exact ih _ (fanout_invoke_drained op rcv h)

/-- C11: the code at the failing input.  In the list `Add(1)`, `Signal`,
`Add(2)`, `Add(3)` on the zero value, the first three calls return and handles
1 and 2 receive one `Signal` call each, but the last `Add` blocks on the mutex
the late `Add(2)` left held: the call does not return and handle 3 receives no
`Signal` call.  A `Signal` call after a late `Add` blocks in the same way. -/
theorem C11_add_after_late_add_blocks :
    (MultiOneShotEvent.run [MultiOp.Add [1], MultiOp.Signal, MultiOp.Add [2]]
      MultiOneShotEvent.zero).status = Status.returned () ∧
    (MultiOneShotEvent.run [MultiOp.Add [1], MultiOp.Signal, MultiOp.Add [2], MultiOp.Add [3]]
      MultiOneShotEvent.zero).status = Status.blocked ∧
    (MultiOneShotEvent.run [MultiOp.Add [1], MultiOp.Signal, MultiOp.Add [2], MultiOp.Add [3]]
      MultiOneShotEvent.zero).trace = [Effect.signal 1, Effect.signal 2] ∧
    signalCount 3 (MultiOneShotEvent.run
      [MultiOp.Add [1], MultiOp.Signal, MultiOp.Add [2], MultiOp.Add [3]]
      MultiOneShotEvent.zero).trace = 0 ∧
    (MultiOneShotEvent.run [MultiOp.Signal, MultiOp.Add [1], MultiOp.Signal]
      MultiOneShotEvent.zero).status = Status.blocked := by
  decide

/-- C12: in every state of a fanout reached from the zero value by any list of
`Add`, `Signal`, `IsSignalled`, `NewEvent` and `NewGroup` calls (whether they
returned or blocked), `signalled = true` implies that the pending list is
empty; so it is empty whenever `IsSignalled` returns true. -/
theorem C12_signalled_implies_no_pending (ops : List FanoutOp) :
    ((MultiOneShotEvent.zero.after ops).signalled = true →
      (MultiOneShotEvent.zero.after ops).events = []) ∧
    ((MultiOneShotEvent.zero.after ops).IsSignalled.status = Status.returned true →
      (MultiOneShotEvent.zero.after ops).events = []) := by
  have h := fanout_after_drained ops MultiOneShotEvent.zero (fun _ => rfl)
  refine ⟨h, ?_⟩
  intro hs
  apply h
  revert hs
  cases hmu : (MultiOneShotEvent.zero.after ops).mu <;>
    simp [MultiOneShotEvent.IsSignalled, hmu]

/-- Witness of C12: a fanout with a pending handle that is signalled, then
given a late handle and a new event: it is signalled and nothing is pending. -/
theorem C12_signalled_implies_no_pending_witness :
    (MultiOneShotEvent.zero.after [FanoutOp.Add [1], FanoutOp.Signal, FanoutOp.Add [2],
      FanoutOp.NewEvent 3 0]).signalled = true ∧
    (MultiOneShotEvent.zero.after [FanoutOp.Add [1], FanoutOp.Signal, FanoutOp.Add [2],
      FanoutOp.NewEvent 3 0]).events = [] :=
  ⟨by decide, (C12_signalled_implies_no_pending [FanoutOp.Add [1], FanoutOp.Signal,
    FanoutOp.Add [2], FanoutOp.NewEvent 3 0]).1 (by decide)⟩

/-! ## Group: counter, Wait and SignalAndWait -/

theorem add_panicked (g : Group) (d : Int) (h : int32 (g.wg + d) < 0) :
    (g.Add d).status = Status.panicked PanicReason.negativeWaitGroupCounter := by
  simp [Group.Add, h]

theorem add_returned_nonneg (g : Group) (d : Int)
    (h : (g.Add d).status = Status.returned ()) : 0 ≤ int32 (g.wg + d) := by
  by_contra hneg
  rw [add_panicked g d (not_le.mp hneg)] at h
  simp at h

theorem done_status_eq (g : Group) (e : error) (h : g.wellFormed) :
    (g.Done e).status = if int32 (g.wg + -1) < 0
      then Status.panicked PanicReason.negativeWaitGroupCounter else Status.returned () := by
  have hr := record_returned g e h
  have hw := (record_wellFormed g e h).2
  simp only [Group.Done, Outcome.andThen, hr, Group.Add, hw]
  split <;> rfl

theorem done_panicked (g : Group) (e : error) (h : g.wellFormed) (hz : g.wg = 0) :
    (g.Done e).status = Status.panicked PanicReason.negativeWaitGroupCounter := by
  have hneg : int32 (g.wg + -1) < 0 := by
    rw [hz, int32_of_range (0 + -1) (by omega) (by omega)]
    omega
  rw [done_status_eq g e h, if_pos hneg]

theorem wait_of_zero (g : Group) (hz : g.wg = 0) : g.Wait = g.Err := by
  simp [Group.Wait, hz]

theorem wait_status_of_free (g : Group) (hmu : g.mu = false) :
    g.Wait.status = if g.wg = 0 then Status.returned g.err else Status.blocked := by
  simp only [Group.Wait]
  split
  · rw [err_of_free g hmu]
  · rfl

theorem group_signal_signalled (g : Group) (h : g.wellFormed) :
    g.Signal.state.IsSignalled = true ∧ g.Signal.state.mu = g.mu ∧
    (g.IsSignalled = true → g.Signal.state = g) := by
  obtain ⟨_, hev⟩ := h
  rcases hev with ⟨h0, id, hC⟩ | h1
  · rw [group_signal_of_zero g id h0 hC]
    refine ⟨rfl, rfl, ?_⟩
    intro hs
    rw [Group.IsSignalled, isSignalled_iff, h0] at hs
    simp at hs
  · rw [group_signal_of_one g h1]
    exact ⟨(isSignalled_iff g.event).2 h1, rfl, fun _ => rfl⟩

theorem group_call_counter (op : GroupOp) (g : Group) (h : g.wellFormed) (hwg : 0 ≤ g.wg)
    (hret : (Group.call op g).status = Status.returned ()) :
    0 ≤ (Group.call op g).state.wg := by
  cases op with
  | Add delta =>
    rw [group_call_add] at hret ⊢
    rw [add_state]
    exact add_returned_nonneg g delta hret
  | Done err =>
    simp only [Group.call] at hret ⊢
    rw [(done_state g err h).1]
    rw [done_status_eq g err h] at hret
    show 0 ≤ int32 (g.wg + -1)
    by_contra hneg
    rw [if_pos (not_le.mp hneg)] at hret
    simp at hret
  | Err =>
    simp only [Group.call, err_of_free g h.1]
    exact hwg
  | Signal =>
    simp only [Group.call]
    rw [(group_signal_wellFormed g h).2.2.1]
    exact hwg
  | Wait =>
    simp only [Group.call, wait_state g h.1]
    exact hwg
  | SignalAndWait =>
    obtain ⟨h1, _, h3, h4⟩ := group_signal_wellFormed g h
    simp only [Group.call, Group.SignalAndWait, Outcome.andThen, h4, wait_state _ h1.1, h3]
    exact hwg

theorem group_run_counter (ops : List GroupOp) (g : Group) (h : g.wellFormed) (hwg : 0 ≤ g.wg)
    (hret : (Group.run ops g).status = Status.returned ()) :
    0 ≤ (Group.run ops g).state.wg ∧ (Group.run ops g).state = g.after ops := by
  induction ops generalizing g with
  | nil => exact ⟨hwg, rfl⟩
  | cons op ops ih =>
    rw [group_run_cons] at hret ⊢
    simp only [Outcome.andThen] at hret ⊢
    cases hs : (Group.call op g).status with
    | returned v =>
      rw [hs] at hret
      simp only at hret ⊢
      rw [group_after_cons]
      exact ih _ (group_call_preserves op g h).1 (group_call_counter op g h hwg hs) hret
    | panicked w => rw [hs] at hret; simp at hret
    | blocked => rw [hs] at hret; simp at hret

theorem group_call_range (op : GroupOp) (g : Group) (h : g.wellFormed)
    (hr : -2147483648 ≤ g.wg ∧ g.wg < 2147483648) :
    -2147483648 ≤ (Group.call op g).state.wg ∧ (Group.call op g).state.wg < 2147483648 := by
  cases op with
  | Add delta =>
    rw [group_call_add, add_state]
    exact int32_range _
  | Done err =>
    simp only [Group.call]
    rw [(done_state g err h).1]
    exact int32_range _
  | Err =>
    simp only [Group.call, err_of_free g h.1]
    exact hr
  | Signal =>
    simp only [Group.call]
    rw [(group_signal_wellFormed g h).2.2.1]
    exact hr
  | Wait =>
    simp only [Group.call, wait_state g h.1]
    exact hr
  | SignalAndWait =>
    obtain ⟨h1, _, h3, h4⟩ := group_signal_wellFormed g h
    simp only [Group.call, Group.SignalAndWait, Outcome.andThen, h4, wait_state _ h1.1, h3]
    exact hr

theorem group_after_range (ops : List GroupOp) (g : Group) (h : g.wellFormed)
    (hr : -2147483648 ≤ g.wg ∧ g.wg < 2147483648) :
    -2147483648 ≤ (g.after ops).wg ∧ (g.after ops).wg < 2147483648 := by
  induction ops generalizing g with
  | nil => exact hr
  | cons op ops ih =>
    rw [group_after_cons]
    exact ih _ (group_call_preserves op g h).1 (group_call_range op g h hr)

theorem group_call_err_source (op : GroupOp) (g : Group) (h : g.wellFormed) (e : Nat)
    (he : (Group.call op g).state.err = some e) :
    g.err = some e ∨ op = GroupOp.Done (some e) := by
  cases op with
  | Add delta =>
    simp only [Group.call, add_state] at he
    exact Or.inl he
  | Done err =>
    simp only [Group.call, (done_state g err h).1, record_err g err h] at he
    cases hg : g.err with
    | some e0 =>
      rw [hg] at he
      simp only [firstError] at he
      exact Or.inl he
    | none =>
      rw [hg] at he
      cases err with
      | none => simp [firstError] at he
      | some e1 =>
        simp only [firstError, Option.some.injEq] at he
        subst he
        exact Or.inr rfl
  | Err =>
    simp only [Group.call, err_of_free g h.1] at he
    exact Or.inl he
  | Signal =>
    simp only [Group.call] at he
    rw [(group_signal_wellFormed g h).2.1] at he
    exact Or.inl he
  | Wait =>
    simp only [Group.call, wait_state g h.1] at he
    exact Or.inl he
  | SignalAndWait =>
    obtain ⟨h1, h2, _, h4⟩ := group_signal_wellFormed g h
    simp only [Group.call, Group.SignalAndWait, Outcome.andThen, h4, wait_state _ h1.1, h2] at he
    exact Or.inl he

theorem group_after_err_source (ops : List GroupOp) (g : Group) (h : g.wellFormed) (e : Nat)
    (he : (g.after ops).err = some e) : g.err = some e ∨ GroupOp.Done (some e) ∈ ops := by
  induction ops generalizing g with
  | nil => exact Or.inl he
  | cons op ops ih =>
    rw [group_after_cons] at he
    rcases ih _ (group_call_preserves op g h).1 he with h1 | h1
    · rcases group_call_err_source op g h e h1 with h2 | h2
      · exact Or.inl h2
      · exact Or.inr (by rw [h2]; exact List.mem_cons_self _ _)
    · exact Or.inr (List.mem_cons_of_mem _ h1)

theorem counter_guard_in_range (fresh : Nat) (ops : List GroupOp) (delta : Int)
    (err : error) :
    (-2147483648 ≤ ((NewGroup fresh).after ops).wg + delta →
      ((NewGroup fresh).after ops).wg + delta < 0 →
      (((NewGroup fresh).after ops).Add delta).status
        = Status.panicked PanicReason.negativeWaitGroupCounter) ∧
    (((NewGroup fresh).after ops).wg = 0 →
      (((NewGroup fresh).after ops).Done err).status
        = Status.panicked PanicReason.negativeWaitGroupCounter) ∧
    ((Group.run ops (NewGroup fresh)).status = Status.returned () →
      0 ≤ (Group.run ops (NewGroup fresh)).state.wg ∧
      (Group.run ops (NewGroup fresh)).state = (NewGroup fresh).after ops) ∧
    (∀ e, ((NewGroup fresh).after ops).Err.status = Status.returned (some e) →
      GroupOp.Done (some e) ∈ ops) := by
  have hnew := newGroup_wellFormed fresh
  have hwg0 : (NewGroup fresh).wg = 0 := rfl
  obtain ⟨hwf, _⟩ := group_after_preserves ops _ hnew
  refine ⟨?_, done_panicked _ err hwf, ?_, ?_⟩
  · intro hlo hneg
    apply add_panicked
    rw [int32_of_range (((NewGroup fresh).after ops).wg + delta) hlo (by omega)]
    exact hneg
  · exact group_run_counter ops _ hnew (by rw [hwg0])
  · intro e he
    rw [err_of_free _ hwf.1] at he
    simp only [Status.returned.injEq] at he
    rcases group_after_err_source ops _ hnew e he with h1 | h1
    · have herr0 : (NewGroup fresh).err = none := rfl
      rw [herr0] at h1
      simp at h1
    · exact h1

theorem counter_moves_in_range (fresh : Nat) (ops : List GroupOp) (delta : Int)
    (err : error) :
    (1 ≤ ((NewGroup fresh).after ops).wg →
      (((NewGroup fresh).after ops).Done err).status = Status.returned () ∧
      (((NewGroup fresh).after ops).Done err).state.wg = ((NewGroup fresh).after ops).wg - 1) ∧
    (0 ≤ ((NewGroup fresh).after ops).wg + delta →
      ((NewGroup fresh).after ops).wg + delta < 2147483648 →
      (((NewGroup fresh).after ops).Add delta).status = Status.returned () ∧
      (((NewGroup fresh).after ops).Add delta).state.wg
        = ((NewGroup fresh).after ops).wg + delta ∧
      (((NewGroup fresh).after ops).Add delta).state.err = ((NewGroup fresh).after ops).err ∧
      (((NewGroup fresh).after ops).Add delta).state.event
        = ((NewGroup fresh).after ops).event) := by
  have hnew := newGroup_wellFormed fresh
  have hwg0 : (NewGroup fresh).wg = 0 := rfl
  obtain ⟨hwf, _⟩ := group_after_preserves ops _ hnew
  obtain ⟨hlo, hhi⟩ := group_after_range ops _ hnew (by rw [hwg0]; omega)
  constructor
  · intro h1
    refine ⟨done_status _ err hwf h1 (by omega), ?_⟩
    rw [(done_state _ err hwf).1]
    show int32 (((NewGroup fresh).after ops).wg + -1) = ((NewGroup fresh).after ops).wg - 1
    rw [int32_of_range (((NewGroup fresh).after ops).wg + -1) (by omega) (by omega)]
    omega
  · intro h0 hmax
    have hin := int32_of_range (((NewGroup fresh).after ops).wg + delta) (by omega) hmax
    refine ⟨?_, ?_, ?_, ?_⟩
    · apply add_status
      rw [hin]
      exact h0
    · rw [add_state]
      exact hin
    · rw [add_state]
    · rw [add_state]

/-- C13: the code at the failing input.  On a new group, whose counter is 0,
`Add(-4294967296)` brings the counter to a negative sum, yet the call returns
and leaves the counter at 0: only the low 32 bits of the delta reach the
`int32` counter of the `sync.WaitGroup`, and here they are all zero. -/
theorem C13_add_of_multiple_of_2_pow_32_returns :
    (NewGroup 0).wg + (-4294967296) < 0 ∧
    ((NewGroup 0).Add (-4294967296)).status = Status.returned () ∧
    ((NewGroup 0).Add (-4294967296)).state.wg = 0 ∧
    ((NewGroup 0).Add (-1)).status
      = Status.panicked PanicReason.negativeWaitGroupCounter := by
  decide

/-- C14: the code at the failing input.  On a new group, whose counter is 0,
`Add(2147483648)` has a sum that is not negative, yet the `int32` counter
wraps to `-2147483648` and the call panics; `Add(4294967296)` returns and
leaves the counter at 0 where the sum is 4294967296. -/
theorem C14_add_wraps_the_int32_counter :
    0 ≤ (NewGroup 0).wg + 2147483648 ∧
    ((NewGroup 0).Add 2147483648).status
      = Status.panicked PanicReason.negativeWaitGroupCounter ∧
    ((NewGroup 0).Add 2147483648).state.wg = -2147483648 ∧
    ((NewGroup 0).Add 4294967296).status = Status.returned () ∧
    ((NewGroup 0).Add 4294967296).state.wg = 0 := by
  decide

/-- C15: in every state a group reaches from `NewGroup` with its counter at
zero, signalled or not, `Wait` is `Err`: it returns the error slot and leaves
the group as it was.  `SignalAndWait` is `Signal` followed by `Wait`: it ends
as `Wait` does, with the same value, and leaves the group in the state
`Signal` leaves it in, which differs from the former one by the event being
signalled only (not at all when it was signalled already). -/
theorem C15_wait_is_err_at_zero (fresh : Nat) (ops : List GroupOp)
    (hz : ((NewGroup fresh).after ops).wg = 0) :
    ((NewGroup fresh).after ops).Wait = ((NewGroup fresh).after ops).Err ∧
    ((NewGroup fresh).after ops).Wait.status
      = Status.returned ((NewGroup fresh).after ops).err ∧
    ((NewGroup fresh).after ops).Wait.state = (NewGroup fresh).after ops ∧
    ((NewGroup fresh).after ops).SignalAndWait
      = ((NewGroup fresh).after ops).Signal.andThen Group.Wait ∧
    ((NewGroup fresh).after ops).SignalAndWait.status
      = ((NewGroup fresh).after ops).Wait.status ∧
    ((NewGroup fresh).after ops).SignalAndWait.state
      = ((NewGroup fresh).after ops).Signal.state ∧
    ((NewGroup fresh).after ops).SignalAndWait.state.IsSignalled = true ∧
    ((NewGroup fresh).after ops).SignalAndWait.state.wg = ((NewGroup fresh).after ops).wg ∧
    ((NewGroup fresh).after ops).SignalAndWait.state.err = ((NewGroup fresh).after ops).err ∧
    ((NewGroup fresh).after ops).SignalAndWait.state.mu = ((NewGroup fresh).after ops).mu ∧
    (((NewGroup fresh).after ops).IsSignalled = true →
      ((NewGroup fresh).after ops).SignalAndWait.state = (NewGroup fresh).after ops) := by
  obtain ⟨hwf, _⟩ := group_after_preserves ops _ (newGroup_wellFormed fresh)
  obtain ⟨s1, s2, s3, s4⟩ := group_signal_wellFormed _ hwf
  obtain ⟨t1, t2, t3⟩ := group_signal_signalled _ hwf
  have hstate : ((NewGroup fresh).after ops).SignalAndWait.state
      = ((NewGroup fresh).after ops).Signal.state := by
    simp only [Group.SignalAndWait, Outcome.andThen, s4, wait_state _ s1.1]
  have hstatus : ((NewGroup fresh).after ops).SignalAndWait.status
      = ((NewGroup fresh).after ops).Wait.status := by
    simp only [Group.SignalAndWait, Outcome.andThen, s4]
    rw [wait_status_of_free _ s1.1, wait_status_of_free _ hwf.1, s2, s3]
  refine ⟨wait_of_zero _ hz, ?_, wait_state _ hwf.1, rfl, hstatus, hstate, ?_, ?_, ?_, ?_, ?_⟩
  · rw [wait_status_of_free _ hwf.1, if_pos hz]
  · rw [hstate]; exact t1
  · rw [hstate]; exact s3
  · rw [hstate]; exact s2
  · rw [hstate]; exact t2
  · intro hs
    rw [hstate]
    exact t3 hs

/-- Witness of C15: a group after `Add(1)` and `Done(7)`, counter zero. -/
theorem C15_wait_is_err_at_zero_witness :
    ((NewGroup 0).after [GroupOp.Add 1, GroupOp.Done (some 7)]).wg = 0 ∧
    ((NewGroup 0).after [GroupOp.Add 1, GroupOp.Done (some 7)]).Wait.status
      = Status.returned (some 7) ∧
    ((NewGroup 0).after [GroupOp.Add 1, GroupOp.Done (some 7)]).SignalAndWait.status
      = Status.returned (some 7) :=
  ⟨by decide,
   (C15_wait_is_err_at_zero 0 [GroupOp.Add 1, GroupOp.Done (some 7)] (by decide)).2.1,
   by decide⟩

/-! ## Context adapters: lemmas -/

theorem mirrors_chan (fresh : Nat) (ev : OneShotEvent) (h : ev.mirrors fresh) :
    ev.C = some { id := fresh, closed := ev.IsSignalled } := by
  rcases h with ⟨h0, hC⟩ | ⟨h1, hC⟩
  · rw [hC]
    simp [OneShotEvent.IsSignalled, LoadInt32, h0]
  · rw [hC]
    simp [OneShotEvent.IsSignalled, LoadInt32, h1]

theorem mirrors_wellFormed (fresh : Nat) (ev : OneShotEvent) (h : ev.mirrors fresh) :
    ev.wellFormed := by
  rcases h with ⟨h0, hC⟩ | ⟨h1, _⟩
  · exact Or.inl ⟨h0, fresh, hC⟩
  · exact Or.inr h1

theorem signal_mirrors (fresh : Nat) (ev : OneShotEvent) (h : ev.mirrors fresh) :
    ev.Signal.state.mirrors fresh ∧ ev.Signal.state.IsSignalled = true := by
  rcases h with ⟨h0, hC⟩ | ⟨h1, hC⟩
  · rw [signal_of_zero ev fresh h0 hC]
    exact ⟨Or.inr ⟨rfl, rfl⟩, rfl⟩
  · rw [signal_of_one ev h1]
    exact ⟨Or.inr ⟨h1, hC⟩, (isSignalled_iff ev).2 h1⟩

theorem call_mirrors (fresh : Nat) (op : EventOp) (ev : OneShotEvent)
    (hop : op.isInit = false) (h : ev.mirrors fresh) :
    (OneShotEvent.call op ev).state.mirrors fresh := by
  cases op with
  | Init id => simp [EventOp.isInit] at hop
  | Signal => exact (signal_mirrors fresh ev h).1
  | IsSignalled => exact h
  | Wait =>
    simp only [OneShotEvent.call, OneShotEvent.Wait]
    split <;> exact h
  | Sleep d elapsed pickTimer => exact h

theorem after_mirrors (fresh : Nat) (ops : List EventOp) (ev : OneShotEvent)
    (hops : ∀ op ∈ ops, op.isInit = false) (h : ev.mirrors fresh) :
    (ev.after ops).mirrors fresh := by
  induction ops generalizing ev with
  | nil => exact h
  | cons op ops ih =>
    exact ih _ (fun o ho => hops o (List.mem_cons_of_mem _ ho))
      (call_mirrors fresh op ev (hops op (List.mem_cons_self _ _)) h)

theorem group_signal_mirrors (fresh : Nat) (g : Group) (h : g.mirrors fresh) :
    g.Signal.state.mirrors fresh ∧ g.Signal.state.IsSignalled = true := by
  obtain ⟨hmu, hev⟩ := h
  obtain ⟨s1, s2⟩ := signal_mirrors fresh g.event hev
  exact ⟨⟨hmu, s1⟩, s2⟩

theorem record_mirrors (fresh : Nat) (g : Group) (e : error) (h : g.mirrors fresh) :
    (g.record e).state.mirrors fresh := by
  obtain ⟨hmu, hev⟩ := h
  cases e with
  | none => exact ⟨hmu, hev⟩
  | some e =>
    cases herr : g.err with
    | some e0 => rw [record_later g e e0 hmu herr]; exact ⟨hmu, hev⟩
    | none =>
      rcases hev with ⟨h0, hC⟩ | ⟨h1, hC⟩
      · rw [record_first g e fresh hmu herr h0 hC]
        exact ⟨hmu, Or.inr ⟨rfl, rfl⟩⟩
      · rw [record_first_signalled g e hmu herr h1]
        exact ⟨hmu, Or.inr ⟨h1, hC⟩⟩

theorem group_call_mirrors (fresh : Nat) (op : GroupOp) (g : Group) (h : g.mirrors fresh) :
    (Group.call op g).state.mirrors fresh := by
  have hwf : g.wellFormed := ⟨h.1, mirrors_wellFormed fresh _ h.2⟩
  cases op with
  | Add delta =>
    simp only [Group.call, add_state]
    exact h
  | Done err =>
    simp only [Group.call, (done_state g err hwf).1]
    exact record_mirrors fresh g err h
  | Err =>
    simp only [Group.call, err_of_free g h.1]
    exact h
  | Signal => exact (group_signal_mirrors fresh g h).1
  | Wait =>
    simp only [Group.call, wait_state g h.1]
    exact h
  | SignalAndWait =>
    obtain ⟨h1, _, _, h4⟩ := group_signal_wellFormed g hwf
    simp only [Group.call, Group.SignalAndWait, Outcome.andThen, h4, wait_state _ h1.1]
    exact (group_signal_mirrors fresh g h).1

theorem group_after_mirrors (fresh : Nat) (ops : List GroupOp) (g : Group)
    (h : g.mirrors fresh) : (g.after ops).mirrors fresh := by
  induction ops generalizing g with
  | nil => exact h
  | cons op ops ih => exact ih _ (group_call_mirrors fresh op g h)

theorem newGroup_mirrors (fresh : Nat) : (NewGroup fresh).mirrors fresh :=
  ⟨rfl, Or.inl ⟨rfl, rfl⟩⟩

theorem new_mirrors (fresh : Nat) : (NewOneShotEvent fresh).mirrors fresh :=
  Or.inl ⟨rfl, rfl⟩

theorem groupKey_ne_foreign (k : Nat) : groupKey ≠ Key.foreign k := by
  simp [groupKey]

theorem oneShotEvent_ne_foreign (k : Nat) : oneShotEvent ≠ Key.foreign k := by
  simp [oneShotEvent]

theorem groupKey_ne_oneShotEvent : groupKey ≠ oneShotEvent := by
  simp [groupKey, oneShotEvent]

theorem value_without_group (ctx : Context) (h : ctx.holdsGroup = false) :
    ctx.Value groupKey = Value.nil := by
  induction ctx with
  | background => rfl
  | withValue parent k val ih =>
    simp only [Context.holdsGroup] at h
    rw [Context.Value, if_neg (groupKey_ne_foreign k)]
    exact ih h
  | withCancel parent done err ih =>
    simp only [Context.holdsGroup] at h
    rw [Context.Value]
    exact ih h
  | groupCtx parent g ih => simp [Context.holdsGroup] at h
  | oneShotEventCtx parent e ih =>
    simp only [Context.holdsGroup] at h
    rw [Context.Value, if_neg groupKey_ne_oneShotEvent]
    exact ih h

theorem value_without_event (ctx : Context) (h : ctx.holdsEvent = false) :
    ctx.Value oneShotEvent = Value.nil := by
  induction ctx with
  | background => rfl
  | withValue parent k val ih =>
    simp only [Context.holdsEvent] at h
    rw [Context.Value, if_neg (oneShotEvent_ne_foreign k)]
    exact ih h
  | withCancel parent done err ih =>
    simp only [Context.holdsEvent] at h
    rw [Context.Value]
    exact ih h
  | groupCtx parent g ih =>
    simp only [Context.holdsEvent] at h
    rw [Context.Value, if_neg (fun hk => groupKey_ne_oneShotEvent hk.symm)]
    exact ih h
  | oneShotEventCtx parent e ih => simp [Context.holdsEvent] at h

/-! ## Context adapters: specification theorems -/

/-- C16: for both adapters, whatever the parent context, with the wrapped group
in any state reached from `NewGroup` and the wrapped event in any state
reached from `NewOneShotEvent` by calls other than `Init`: `Done` returns the
channel `C` of the wrapped object, the one made by its constructor, closed
exactly when the object is signalled (an event is signalled exactly when a
`Signal` call was made on it; a group is not signalled when new and is
signalled after a `Signal` call); `Err` returns `context.Canceled` when that
channel is closed and nil otherwise. -/
theorem C16_adapter_done_and_err (parent : Context) (heap : Heap) (pg pe fresh : Nat)
    (gops : List GroupOp) (eops : List EventOp)
    (hg : heap.groups pg = (NewGroup fresh).after gops)
    (he : heap.events pe = (NewOneShotEvent fresh).after eops)
    (hops : ∀ op ∈ eops, op.isInit = false) :
    (WithGroup parent pg).Done heap = (heap.groups pg).event.C ∧
    (WithGroup parent pg).Done heap
      = some { id := fresh, closed := (heap.groups pg).IsSignalled } ∧
    (WithGroup parent pg).Err heap
      = (if recvReady ((WithGroup parent pg).Done heap) then Canceled else none) ∧
    (NewGroup fresh).IsSignalled = false ∧
    (heap.groups pg).Signal.state.IsSignalled = true ∧
    (WithOneShotEvent parent pe).Done heap = (heap.events pe).C ∧
    (WithOneShotEvent parent pe).Done heap
      = some { id := fresh, closed := (heap.events pe).IsSignalled } ∧
    (WithOneShotEvent parent pe).Err heap
      = (if recvReady ((WithOneShotEvent parent pe).Done heap) then Canceled else none) ∧
    ((heap.events pe).IsSignalled = true ↔ EventOp.Signal ∈ eops) := by
  have hgm : (heap.groups pg).mirrors fresh := by
    rw [hg]; exact group_after_mirrors fresh gops _ (newGroup_mirrors fresh)
  have hem : (heap.events pe).mirrors fresh := by
    rw [he]; exact after_mirrors fresh eops _ hops (new_mirrors fresh)
  have hgc := mirrors_chan fresh _ hgm.2
  have hec := mirrors_chan fresh _ hem
  have hsig : (heap.events pe).IsSignalled = true ↔ EventOp.Signal ∈ eops := by
    rw [he, after_isSignalled eops _ (mirrored_wellFormed _ (new_mirrored fresh))]
    have hnew : (NewOneShotEvent fresh).IsSignalled = false := rfl
    simp [hnew]
  refine ⟨rfl, hgc, ?_, rfl, (group_signal_mirrors fresh _ hgm).2, rfl, hec, ?_, hsig⟩
  · simp only [WithGroup, Context.Done, Context.Err, hgc, recvReady, Group.IsSignalled]
  · simp only [WithOneShotEvent, Context.Done, Context.Err, hec, recvReady]

/-- Witness of C16: a group after `Add(1)`, `Done(7)` at address 3 and an event
after `Signal` at address 4, under a parent with a closed channel of its own. -/
theorem C16_adapter_done_and_err_witness :
    (WithGroup (Context.withCancel Context.background (some { id := 9, closed := true }) (some 5)) 3).Done
        { groups := fun _ => (NewGroup 1).after [GroupOp.Add 1, GroupOp.Done (some 7)],
          events := fun _ => (NewOneShotEvent 1).after [EventOp.Signal] }
      = some { id := 1, closed := true } ∧
    (WithOneShotEvent
        (Context.withCancel Context.background (some { id := 9, closed := true }) (some 5)) 4).Err
        { groups := fun _ => (NewGroup 1).after [GroupOp.Add 1, GroupOp.Done (some 7)],
          events := fun _ => (NewOneShotEvent 1).after [EventOp.Signal] }
      = Canceled :=
  ⟨((C16_adapter_done_and_err
      (Context.withCancel Context.background (some { id := 9, closed := true }) (some 5))
      { groups := fun _ => (NewGroup 1).after [GroupOp.Add 1, GroupOp.Done (some 7)],
        events := fun _ => (NewOneShotEvent 1).after [EventOp.Signal] }
      3 4 1 [GroupOp.Add 1, GroupOp.Done (some 7)] [EventOp.Signal] rfl rfl
      (by decide)).2.1).trans (by decide),
   by decide⟩

/-- C17: for every parent context, `GroupFromContext(WithGroup(p, g))` returns
the pointer `g` that was wrapped, with true, and
`OneShotEventFromContext(WithOneShotEvent(p, e))` returns the pointer `e`,
with true, whatever the parent already holds. -/
theorem C17_from_context_round_trip (parent : Context) (g e : Nat) :
    GroupFromContext (WithGroup parent g) = (some g, true) ∧
    OneShotEventFromContext (WithOneShotEvent parent e) = (some e, true) := by
  simp [GroupFromContext, OneShotEventFromContext, WithGroup, WithOneShotEvent, Context.Value]

/-- C18: for each adapter, `Value(key)` with a key other than the adapter's own
reserved key is `parent.Value(key)`; `GroupFromContext` and
`OneShotEventFromContext` return nil and false on a chain that holds no
wrapper of their kind, such as `context.Background()`; the two reserved keys
differ; and a lookup passes through a wrapper of the other kind. -/
theorem C18_value_delegates_to_parent (parent ctx : Context) (g e : Nat) (key : Key) :
    (key ≠ groupKey → (WithGroup parent g).Value key = parent.Value key) ∧
    (key ≠ oneShotEvent → (WithOneShotEvent parent e).Value key = parent.Value key) ∧
    (ctx.holdsGroup = false → GroupFromContext ctx = (none, false)) ∧
    (ctx.holdsEvent = false → OneShotEventFromContext ctx = (none, false)) ∧
    GroupFromContext Context.background = (none, false) ∧
    OneShotEventFromContext Context.background = (none, false) ∧
    groupKey ≠ oneShotEvent ∧
    OneShotEventFromContext (WithGroup (WithOneShotEvent parent e) g) = (some e, true) ∧
    GroupFromContext (WithOneShotEvent (WithGroup parent g) e) = (some g, true) := by
  refine ⟨?_, ?_, ?_, ?_, rfl, rfl, groupKey_ne_oneShotEvent, ?_, ?_⟩
  · intro hk
    simp [WithGroup, Context.Value, hk]
  · intro hk
    simp [WithOneShotEvent, Context.Value, hk]
  · intro h
    simp [GroupFromContext, value_without_group ctx h]
  · intro h
    simp [OneShotEventFromContext, value_without_event ctx h]
  · have hne : oneShotEvent ≠ groupKey := fun hk => groupKey_ne_oneShotEvent hk.symm
    simp [OneShotEventFromContext, WithGroup, WithOneShotEvent, Context.Value, hne]
  · simp [GroupFromContext, WithGroup, WithOneShotEvent, Context.Value,
      groupKey_ne_oneShotEvent]

/-- Witness of C18: a foreign key below a group wrapper, and a chain that holds
an event wrapper and a value of another package but no group wrapper. -/
theorem C18_value_delegates_to_parent_witness :
    (WithGroup (Context.withValue Context.background 4 (Value.other 6)) 2).Value (Key.foreign 4)
      = Value.other 6 ∧
    GroupFromContext
      (WithOneShotEvent (Context.withValue Context.background 4 (Value.group 8)) 1)
      = (none, false) :=
  ⟨((C18_value_delegates_to_parent (Context.withValue Context.background 4 (Value.other 6))
      Context.background 2 1 (Key.foreign 4)).1 (by decide)).trans (by decide),
   (C18_value_delegates_to_parent Context.background
      (WithOneShotEvent (Context.withValue Context.background 4 (Value.group 8)) 1)
      2 1 (Key.foreign 4)).2.2.1 (by decide)⟩

/-! ## Tasks launched by Go: lemmas -/

theorem play_cons_of_not_panicked (a : GoAct) (rest : List GoAct) (g : Group)
    (h : ∀ w, (Group.act a g).status ≠ Status.panicked w) :
    Group.play (a :: rest) g =
      { state := (Group.play rest (Group.act a g).state).state,
        trace := (Group.act a g).trace ++ (Group.play rest (Group.act a g).state).trace,
        status := (Group.play rest (Group.act a g).state).status } := by
  cases hs : (Group.act a g).status with
  | returned v => simp [Group.play, hs]
  | panicked w => exact absurd hs (h w)
  | blocked => simp [Group.play, hs]

theorem act_handle (op : EventOp) (g : Group) (h : g.wellFormed) :
    (∀ w, (Group.act (GoAct.handle op) g).status ≠ Status.panicked w) ∧
    (Group.act (GoAct.handle op) g).state.wellFormed ∧
    (Group.act (GoAct.handle op) g).state.wg = g.wg ∧
    (Group.act (GoAct.handle op) g).state.err = g.err :=
  ⟨fun w => call_not_panicked op g.event h.2 w, ⟨h.1, call_wellFormed op g.event h.2⟩, rfl, rfl⟩

theorem play_balanced (acts : List GoAct) (g : Group) (c n : Nat) (hwf : g.wellFormed)
    (hwg : g.wg = c) (hout : outstanding c acts = some n)
    (hb : c + acts.length < 2147483648) :
    (Group.play acts g).status = Status.returned () ∧
    (Group.play acts g).state.wellFormed ∧
    (Group.play acts g).state.wg = n ∧
    (Group.play acts g).state.err = firstError (g.err :: returnValues acts) := by
  induction acts generalizing g c with
  | nil =>
    simp only [outstanding, Option.some.injEq] at hout
    refine ⟨rfl, hwf, by simp [Group.play, hwg, hout], ?_⟩
    cases hg : g.err <;> simp [Group.play, returnValues, firstError, hg]
  | cons a rest ih =>
    simp only [List.length_cons] at hb
    cases a with
    | launch =>
      have hin : int32 (g.wg + 1) = g.wg + 1 :=
        int32_of_range (g.wg + 1) (by omega) (by omega)
      have hret : (Group.act GoAct.launch g).status = Status.returned () := by
        show (g.Add 1).status = Status.returned ()
        apply add_status
        rw [hin]
        omega
      have hst : (Group.act GoAct.launch g).state = { g with wg := g.wg + 1 } := by
        show (g.Add 1).state = _
        rw [add_state, hin]
      rw [play_cons_of_not_panicked _ _ _ (by rw [hret]; simp)]
      simp only [outstanding] at hout
      have := ih (Group.act GoAct.launch g).state (c + 1) (by rw [hst]; exact hwf)
        (by rw [hst]; simp [hwg]) hout (by omega)
      rw [hst] at this ⊢
      simpa [returnValues] using this
    | handle op =>
      obtain ⟨h1, h2, h3, h4⟩ := act_handle op g hwf
      rw [play_cons_of_not_panicked _ _ _ h1]
      simp only [outstanding] at hout
      have := ih (Group.act (GoAct.handle op) g).state c h2 (by rw [h3]; exact hwg) hout
        (by omega)
      rw [h4] at this
      simpa [returnValues] using this
    | finish err =>
      cases c with
      | zero => simp [outstanding] at hout
      | succ c =>
        simp only [outstanding] at hout
        have hret : (Group.act (GoAct.finish err) g).status = Status.returned () :=
          done_status g err hwf (by omega) (by omega)
        obtain ⟨hst, _⟩ := done_state g err hwf
        have hwf2 : (Group.act (GoAct.finish err) g).state.wellFormed := by
          show (g.Done err).state.wellFormed
          rw [hst]
          exact ⟨(record_wellFormed g err hwf).1.1, (record_wellFormed g err hwf).1.2⟩
        have hwg2 : (Group.act (GoAct.finish err) g).state.wg = c := by
          show (g.Done err).state.wg = (c : Int)
          rw [hst]
          show int32 (g.wg + -1) = (c : Int)
          rw [int32_of_range (g.wg + -1) (by omega) (by omega)]
          omega
        have herr : (Group.act (GoAct.finish err) g).state.err = firstError [g.err, err] := by
          show (g.Done err).state.err = _
          rw [hst]
          exact record_err g err hwf
        rw [play_cons_of_not_panicked _ _ _ (by rw [hret]; simp)]
        have := ih (Group.act (GoAct.finish err) g).state c hwf2 hwg2 hout (by omega)
        rw [herr, ← firstError_cons_cons] at this
        simpa [returnValues] using this

theorem call_of_signalled (op : EventOp) (ev : OneShotEvent) (hop : op.isInit = false)
    (h1 : ev.signalled = 1) :
    (OneShotEvent.call op ev).state = ev ∧ (OneShotEvent.call op ev).trace = [] := by
  cases op with
  | Init id => simp [EventOp.isInit] at hop
  | Signal => simp [OneShotEvent.call, signal_of_one ev h1]
  | IsSignalled => exact ⟨rfl, rfl⟩
  | Wait =>
    simp only [OneShotEvent.call, OneShotEvent.Wait]
    split <;> exact ⟨rfl, rfl⟩
  | Sleep d elapsed pickTimer => exact ⟨rfl, rfl⟩

theorem after_of_signalled (ops : List EventOp) (ev : OneShotEvent)
    (hops : ∀ op ∈ ops, op.isInit = false) (h1 : ev.signalled = 1) :
    ev.after ops = ev ∧ OneShotEvent.effects ops ev = [] := by
  induction ops with
  | nil => exact ⟨rfl, rfl⟩
  | cons op ops ih =>
    obtain ⟨c1, c2⟩ := call_of_signalled op ev (hops op (List.mem_cons_self _ _)) h1
    obtain ⟨i1, i2⟩ := ih (fun o ho => hops o (List.mem_cons_of_mem _ ho))
    rw [after_cons, OneShotEvent.effects, c1, c2, i1, i2]
    exact ⟨rfl, rfl⟩

/-! ## Tasks launched by Go and Init after Signal: specification theorems -/

/-- C19: `Go(task)` has its caller run `Add(1)`, which raises the counter by
one (as long as the `int32` counter holds the result), and starts a goroutine
that runs the task on the embedded event of the group and, when the task
returns `err`, calls `Done(err)` (`GoFunc` does the same with the function as
the task).  Hence for every list of fewer than 2^31 steps of a fresh group
(launches, calls of running tasks on the stop handle, returns of tasks) in
which each return follows its launch and every launched task has returned: no
step panics, the counter is back to zero, and `Wait` returns the first
non-nil value among the values returned by the tasks, in the order of their
`Done` calls, nil when they are all nil. -/
theorem C19_go_runs_task_then_done (fresh : Nat) (acts : List GoAct)
    (hall : outstanding 0 acts = some 0) (hlen : acts.length < 2147483648) :
    (Group.play acts (NewGroup fresh)).status = Status.returned () ∧
    (Group.play acts (NewGroup fresh)).state.wg = 0 ∧
    (Group.play acts (NewGroup fresh)).state.Wait.status
      = Status.returned (firstError (returnValues acts)) ∧
    (firstError (returnValues acts) = none ↔ ∀ e ∈ returnValues acts, e = none) ∧
    (∀ (g : Group) (task : Task),
      (g.Go task).1 = g.Add 1 ∧
      (-2147483648 ≤ g.wg → g.wg + 1 < 2147483648 → (g.Go task).1.state.wg = g.wg + 1) ∧
      (g.Go task).1 = Group.act GoAct.launch g) ∧
    (∀ (g : Group) (f : Func), g.GoFunc f = g.Go { Run := f }) ∧
    (∀ (g g2 : Group) (task : Task) (ev : OneShotEvent) (tr : List Effect) (err : error),
      task.Run g2.event = { state := ev, trace := tr, status := Status.returned err } →
      (g.Go task).2 g2 =
        { state := (({ g2 with event := ev } : Group).Done err).state,
          trace := tr ++ (({ g2 with event := ev } : Group).Done err).trace,
          status := (({ g2 with event := ev } : Group).Done err).status }) ∧
    (∀ (g g2 : Group) (task : Task) (err : error),
      task.Run g2.event = { state := g2.event, trace := [], status := Status.returned err } →
      (g.Go task).2 g2 = Group.act (GoAct.finish err) g2) := by
  have hwg0 : (NewGroup fresh).wg = ((0 : Nat) : Int) := rfl
  obtain ⟨p1, p2, p3, p4⟩ :=
    play_balanced acts (NewGroup fresh) 0 0 (newGroup_wellFormed fresh) hwg0 hall
      (by omega)
  have herr0 : (NewGroup fresh).err = none := rfl
  have hzero : (Group.play acts (NewGroup fresh)).state.wg = 0 := by
    rw [p3]
    rfl
  refine ⟨p1, hzero, ?_, firstError_eq_none _, ?_, ?_, ?_, ?_⟩
  · rw [wait_status_of_free _ p2.1, if_pos hzero, p4, herr0]
    rfl
  · intro g task
    refine ⟨rfl, ?_, rfl⟩
    intro hlo hhi
    show (g.Add 1).state.wg = g.wg + 1
    rw [add_state]
    exact int32_of_range (g.wg + 1) (by omega) hhi
  · intro g f
    rfl
  · intro g g2 task ev tr err h
    simp only [Group.Go, Group.goroutine, h]
  · intro g g2 task err h
    simp only [Group.Go, Group.goroutine, h, Group.act, List.nil_append]

/-- Witness of C19: two tasks are launched; the first returns error 1, the
second waits on the stop handle and returns nil. -/
theorem C19_go_runs_task_then_done_witness :
    outstanding 0 [GoAct.launch, GoAct.launch, GoAct.finish (some 1),
      GoAct.handle EventOp.Wait, GoAct.finish none] = some 0 ∧
    [GoAct.launch, GoAct.launch, GoAct.finish (some 1),
      GoAct.handle EventOp.Wait, GoAct.finish none].length < 2147483648 ∧
    (Group.play [GoAct.launch, GoAct.launch, GoAct.finish (some 1),
      GoAct.handle EventOp.Wait, GoAct.finish none] (NewGroup 0)).state.Wait.status
      = Status.returned (some 1) :=
  ⟨by decide, by decide,
   (C19_go_runs_task_then_done 0 [GoAct.launch, GoAct.launch, GoAct.finish (some 1),
      GoAct.handle EventOp.Wait, GoAct.finish none] (by decide) (by decide)).2.2.1⟩

/-- C20: on an event that has been signalled, `Init` leaves `IsSignalled` true
and replaces `C` by a new open channel.  From then on no list of `Signal`,
`IsSignalled`, `Wait` and `Sleep` calls changes the event or closes anything:
every `Signal` fails its compare-and-swap.  So `Wait` blocks and `Sleep(d)`
returns true, for every `d`, while `IsSignalled` is true. -/
theorem C20_init_after_signal_reopens_channel (fresh fresh2 : Nat) (ops later : List EventOp)
    (d elapsed : Int) (pickTimer : Bool)
    (hs : ((NewOneShotEvent fresh).after ops).IsSignalled = true)
    (hl : ∀ op ∈ later, op.isInit = false) :
    (((NewOneShotEvent fresh).after ops).Init fresh2).IsSignalled = true ∧
    (((NewOneShotEvent fresh).after ops).Init fresh2).C
      = some { id := fresh2, closed := false } ∧
    (((NewOneShotEvent fresh).after ops).Init fresh2).cas
      = (((NewOneShotEvent fresh).after ops).Init fresh2, false) ∧
    (((NewOneShotEvent fresh).after ops).Init fresh2).Signal
      = { state := ((NewOneShotEvent fresh).after ops).Init fresh2, trace := [],
          status := Status.returned () } ∧
    (((NewOneShotEvent fresh).after ops).Init fresh2).after later
      = ((NewOneShotEvent fresh).after ops).Init fresh2 ∧
    OneShotEvent.effects later (((NewOneShotEvent fresh).after ops).Init fresh2) = [] ∧
    ((((NewOneShotEvent fresh).after ops).Init fresh2).after later).Wait.status
      = Status.blocked ∧
    (((((NewOneShotEvent fresh).after ops).Init fresh2).after later).Sleep d elapsed
      pickTimer).status = Status.returned true ∧
    ((((NewOneShotEvent fresh).after ops).Init fresh2).after later).IsSignalled = true := by
  have h1 : (((NewOneShotEvent fresh).after ops).Init fresh2).signalled = 1 :=
    (isSignalled_iff _).1 hs
  have hsig : (((NewOneShotEvent fresh).after ops).Init fresh2).IsSignalled = true :=
    (isSignalled_iff _).2 h1
  obtain ⟨a1, a2⟩ := after_of_signalled later _ hl h1
  have hwait : (((NewOneShotEvent fresh).after ops).Init fresh2).Wait.status
      = Status.blocked := by
    simp [OneShotEvent.Wait, OneShotEvent.Init, recvReady, make]
  have hsleep : ((((NewOneShotEvent fresh).after ops).Init fresh2).Sleep d elapsed
      pickTimer).status = Status.returned true := by
    simp [OneShotEvent.Sleep, OneShotEvent.Init, recvReady, make]
  refine ⟨hsig, rfl, cas_of_one _ h1, signal_of_one _ h1, a1, a2, ?_, ?_, ?_⟩
  · rw [a1]; exact hwait
  · rw [a1]; exact hsleep
  · rw [a1]; exact hsig

/-- Witness of C20: a fresh event is signalled, initialised again and signalled
twice more; it then reports signalled while `Wait` blocks and `Sleep(10)`
returns true. -/
theorem C20_init_after_signal_reopens_channel_witness :
    ((NewOneShotEvent 0).after [EventOp.Signal]).IsSignalled = true ∧
    (∀ op ∈ [EventOp.Signal, EventOp.Signal], op.isInit = false) ∧
    ((((NewOneShotEvent 0).after [EventOp.Signal]).Init 1).after
      [EventOp.Signal, EventOp.Signal]).Wait.status = Status.blocked ∧
    (((((NewOneShotEvent 0).after [EventOp.Signal]).Init 1).after
      [EventOp.Signal, EventOp.Signal]).Sleep 10 0 false).status = Status.returned true :=
  ⟨by decide, by decide,
   (C20_init_after_signal_reopens_channel 0 1 [EventOp.Signal]
      [EventOp.Signal, EventOp.Signal] 10 0 false (by decide) (by decide)).2.2.2.2.2.2.1,
   (C20_init_after_signal_reopens_channel 0 1 [EventOp.Signal]
      [EventOp.Signal, EventOp.Signal] 10 0 false (by decide) (by decide)).2.2.2.2.2.2.2.1⟩

/-! ## Done on its fatal path -/

theorem done_first_at_zero (fresh : Nat) (g : Group) (e : Nat) (h : g.mirrors fresh)
    (hz : g.wg = 0) (herr : g.err = none) :
    (g.record (some e)).status = Status.returned () ∧
    (g.record (some e)).state
      = { g with err := some e,
                 event := { C := some { id := fresh, closed := true }, signalled := 1 } } ∧
    (g.Done (some e)).state
      = { event := { C := some { id := fresh, closed := true }, signalled := 1 },
          wg := -1, mu := false, err := some e } ∧
    (g.Done (some e)).trace = (g.record (some e)).trace ∧
    (g.IsSignalled = false → (g.record (some e)).trace = [Effect.close fresh]) ∧
    (g.IsSignalled = true → (g.record (some e)).trace = []) := by
  have hwf : g.wellFormed := ⟨h.1, mirrors_wellFormed fresh _ h.2⟩
  obtain ⟨hst, htr⟩ := done_state g (some e) hwf
  obtain ⟨hmu, hev⟩ := h
  rw [hst, htr]
  rcases hev with ⟨h0, hC⟩ | ⟨h1, hC⟩
  · rw [record_first g e fresh hmu herr h0 hC]
    refine ⟨rfl, rfl, by simp [hz, hmu, int32_neg_one], rfl, fun _ => rfl, ?_⟩
    intro hs
    rw [Group.IsSignalled, isSignalled_iff, h0] at hs
    simp at hs
  · rw [record_first_signalled g e hmu herr h1]
    have hevent : g.event = { C := some { id := fresh, closed := true }, signalled := 1 } := by
      cases hg : g.event with
      | mk C sg =>
        rw [hg] at h1 hC
        simp only at h1 hC
        rw [h1, hC]
    refine ⟨rfl, by rw [← hevent], by simp [hz, hmu, hevent, int32_neg_one], rfl, ?_, fun _ => rfl⟩
    intro hs
    rw [Group.IsSignalled, (isSignalled_iff g.event).2 h1] at hs
    simp at hs

/-- C21: in every state a group reaches from `NewGroup` with its counter at 0
and its error slot empty, `Done(err)` with a non-nil `err` first completes
its guarded part, which stores `err` in the error slot and signals the
embedded event (the call closes `C` when the group was not signalled yet;
`C` is closed afterwards in every case), and only then panics on the counter
decrement: the state the panic leaves differs from the state before the
call. -/
theorem C21_done_fatal_path_not_atomic (fresh : Nat) (ops : List GroupOp) (e : Nat)
    (hz : ((NewGroup fresh).after ops).wg = 0)
    (herr : ((NewGroup fresh).after ops).err = none) :
    (((NewGroup fresh).after ops).Done (some e)).status
      = Status.panicked PanicReason.negativeWaitGroupCounter ∧
    (((NewGroup fresh).after ops).record (some e)).status = Status.returned () ∧
    (((NewGroup fresh).after ops).record (some e)).state.err = some e ∧
    (((NewGroup fresh).after ops).record (some e)).state.IsSignalled = true ∧
    ((((NewGroup fresh).after ops).record (some e)).state.Add (-1)).status
      = Status.panicked PanicReason.negativeWaitGroupCounter ∧
    (((NewGroup fresh).after ops).Done (some e)).state.err = some e ∧
    (((NewGroup fresh).after ops).Done (some e)).state.IsSignalled = true ∧
    (((NewGroup fresh).after ops).Done (some e)).state.event.C
      = some { id := fresh, closed := true } ∧
    (((NewGroup fresh).after ops).IsSignalled = false →
      (((NewGroup fresh).after ops).Done (some e)).trace = [Effect.close fresh]) ∧
    (((NewGroup fresh).after ops).IsSignalled = true →
      (((NewGroup fresh).after ops).Done (some e)).trace = []) ∧
    (((NewGroup fresh).after ops).Done (some e)).state ≠ (NewGroup fresh).after ops := by
  have hm := group_after_mirrors fresh ops _ (newGroup_mirrors fresh)
  have hwf : ((NewGroup fresh).after ops).wellFormed :=
    ⟨hm.1, mirrors_wellFormed fresh _ hm.2⟩
  obtain ⟨r1, r2, d1, d2, t1, t2⟩ := done_first_at_zero fresh _ e hm hz herr
  refine ⟨done_panicked _ (some e) hwf hz, r1, by rw [r2], by rw [r2]; rfl, ?_,
    by rw [d1], by rw [d1]; rfl, by rw [d1], ?_, ?_, ?_⟩
  · apply add_panicked
    rw [r2]
    simp [hz, int32_neg_one]
  · intro hs
    rw [d2]
    exact t1 hs
  · intro hs
    rw [d2]
    exact t2 hs
  · intro heq
    have h2 : (((NewGroup fresh).after ops).Done (some e)).state.err
        = ((NewGroup fresh).after ops).err := by rw [heq]
    rw [d1, herr] at h2
    simp at h2

/-- Witness of C21: `Done(7)` on a new group, whose counter is 0. -/
theorem C21_done_fatal_path_not_atomic_witness :
    ((NewGroup 3).after []).wg = 0 ∧ ((NewGroup 3).after []).err = none ∧
    (((NewGroup 3).after []).Done (some 7)).status
      = Status.panicked PanicReason.negativeWaitGroupCounter ∧
    (((NewGroup 3).after []).Done (some 7)).state.err = some 7 ∧
    (((NewGroup 3).after []).Done (some 7)).trace = [Effect.close 3] :=
  ⟨by decide, by decide,
   (C21_done_fatal_path_not_atomic 3 [] 7 (by decide) (by decide)).1,
   (C21_done_fatal_path_not_atomic 3 [] 7 (by decide) (by decide)).2.2.2.2.2.1,
   (C21_done_fatal_path_not_atomic 3 [] 7 (by decide) (by decide)).2.2.2.2.2.2.2.2.1
     (by decide)⟩

end GoTask
